import Mathlib

/-!
Verification of the resilient fetch-orchestration core of the `dub-rip`
repository: a shallow embedding in Lean 4 of the SSRF-validating download
client (`src/lib/cobalt.ts`), the single-flight PO-token cache
(`src/lib/yt-token.ts`), the MusicBrainz selection helpers
(`src/lib/musicbrainz.ts`) and the download-stream controller
(`src/routes/api/download-stream/+server.ts`), together with proofs and
refutations of the claims made by the specification about them.
-/

namespace DubRip

/-! ## URL model

The TypeScript code uses the platform WHATWG `URL` class.  We model a URL by
the two components the repository inspects — `protocol` (with the trailing
colon, as in JavaScript: `"https:"`) and `hostname` — and model `new URL(s)`
by `parseUrl`, restricted to the `scheme://[userinfo@]host[:port][/...]`
shapes occurring here.  A string without a well-formed `scheme://host` part
parses to `none`, which models the `TypeError` thrown by `new URL`. -/

structure Url where
  protocol : String
  hostname : String
deriving Repr, DecidableEq

/-! String primitives are implemented over `List Char` with structural
recursion so that every definition in this file evaluates by kernel
reduction on concrete inputs. -/

def isPrefixList : List Char → List Char → Bool
  | [], _ => true
  | _ :: _, [] => false
  | a :: as, b :: bs => a == b && isPrefixList as bs

/-- Does `pat` occur as a contiguous substring of `s`? -/
def hasSubstr (pat : List Char) : List Char → Bool
  | [] => pat.isEmpty
  | c :: rest => isPrefixList pat (c :: rest) || hasSubstr pat rest

/-- JavaScript `String.prototype.includes`. -/
def jsIncludes (s pat : String) : Bool :=
  hasSubstr pat.data s.data

/-- JavaScript `String.prototype.startsWith`. -/
def jsStartsWith (s pat : String) : Bool :=
  isPrefixList pat.data s.data

/-- JavaScript `String.prototype.endsWith` / an anchored `$`-suffix regex. -/
def jsEndsWith (s pat : String) : Bool :=
  isPrefixList pat.data.reverse s.data.reverse

def jsToLower (s : String) : String :=
  String.mk (s.data.map Char.toLower)

/-- JavaScript `String.prototype.trim` (whitespace at both ends). -/
def jsTrim (s : String) : String :=
  String.mk (((s.data.dropWhile Char.isWhitespace).reverse.dropWhile
    Char.isWhitespace).reverse)

/-- Split at the first occurrence of `pat`, returning the parts before and
after it. -/
def splitFirstOn (pat : List Char) : List Char → Option (List Char × List Char)
  | [] => if pat.isEmpty then some ([], []) else none
  | c :: rest =>
    if isPrefixList pat (c :: rest) then some ([], (c :: rest).drop pat.length)
    else
      match splitFirstOn pat rest with
      | some (before, after) => some (c :: before, after)
      | none => none

/-- Split on every occurrence of the character `sep` (the behavior of
`String.prototype.split` / `splitOn` with a one-character separator). -/
def splitOnChar (sep : Char) : List Char → List (List Char)
  | [] => [[]]
  | c :: rest =>
    let r := splitOnChar sep rest
    if c == sep then [] :: r
    else
      match r with
      | [] => [[c]]
      | h :: t => (c :: h) :: t

def schemeCharOk (c : Char) : Bool :=
  c.isAlpha

/-- Characters that end the authority section of a URL. -/
def authorityEnd (c : Char) : Bool :=
  c = '/' || c = '?' || c = '#'

/-- Model of the WHATWG URL parser (platform collaborator), restricted to the
absolute-URL shapes appearing in this repository.  Returns the lowercased
protocol (with trailing colon) and hostname; strips userinfo and port. -/
def parseUrl (s : String) : Option Url :=
  match splitFirstOn "://".data s.data with
  | none => none
  | some (scheme, remainder) =>
    if scheme.isEmpty || !(scheme.all schemeCharOk) then none
    else
      let authority := remainder.takeWhile (fun c => !authorityEnd c)
      -- drop userinfo (everything up to the last '@')
      let afterUser :=
        if authority.contains '@' then
          ((authority.reverse.takeWhile (fun c => c ≠ '@')).reverse)
        else authority
      -- drop the port (':' suffix)
      let host := afterUser.takeWhile (fun c => c ≠ ':')
      if host.isEmpty then none
      else some ⟨String.mk (scheme.map Char.toLower) ++ ":",
        String.mk (host.map Char.toLower)⟩

/-- Model of `new URL(location, currentUrl).href` for redirect resolution:
an absolute location wins; a protocol-relative `//host/...` location takes
the scheme of the base; any other (relative) location keeps the scheme and
host.  Only scheme and host are significant downstream, so the path of a
relative resolution is kept as-is. -/
def resolveUrl (location currentUrl : String) : String :=
  if (parseUrl location).isSome then location
  else
    match parseUrl currentUrl with
    | none => location
    | some base =>
      if jsStartsWith location "//" then base.protocol ++ location
      else if jsStartsWith location "/" then
        base.protocol ++ "//" ++ base.hostname ++ location
      else base.protocol ++ "//" ++ base.hostname ++ "/" ++ location

/-! ## `src/lib/cobalt.ts` — configuration and the download allow-list -/

/-- The environment variables read by `cobalt.ts`; the empty string models an
unset variable (the code only tests truthiness / applies `||` defaults). -/
structure Config where
  cobaltApiUrl : String := ""
  cobaltApiKey : String := ""
  cobaltTunnelHost : String := ""
deriving Repr, DecidableEq

def getCobaltApiUrl (cfg : Config) : String :=
  if cfg.cobaltApiUrl == "" then "https://api.cobalt.tools/" else cfg.cobaltApiUrl

def DEFAULT_TIMEOUT : Nat := 30000
def MAX_REDIRECTS : Nat := 5

def DEFAULT_ALLOWED_DOWNLOAD_HOSTS : List String :=
  ["cobalt.tools", "api.cobalt.tools", "download.cobalt.tools", "cdn.cobalt.tools"]

/-- Regex `/^\d{1,3}$/`: one to three decimal digits. -/
def octet (s : String) : Bool :=
  1 ≤ s.length && s.length ≤ 3 && s.toList.all Char.isDigit

/-- Second octet of `/^172\.(1[6-9]|2\d|3[01])\.\d{1,3}\.\d{1,3}$/`. -/
def octet172 (s : String) : Bool :=
  match s.toList with
  | ['1', c] => '6' ≤ c && c ≤ '9'
  | ['2', c] => c.isDigit
  | ['3', c] => c = '0' || c = '1'
  | _ => false

/-- The `PRIVATE_HOSTNAME_PATTERNS` regex list of `cobalt.ts`. -/
def isPrivateHostname (hostname : String) : Bool :=
  jsEndsWith hostname ".internal" ||
  jsEndsWith hostname ".railway.internal" ||
  hostname == "localhost" ||
  (match (splitOnChar '.' hostname.data).map String.mk with
   | [a, b, c, d] =>
     (a == "127" && octet b && octet c && octet d) ||
     (a == "10" && octet b && octet c && octet d) ||
     (a == "172" && octet172 b && octet c && octet d) ||
     (a == "192" && b == "168" && octet c && octet d)
   | _ => false)

def isPrivateCobaltInstance (cfg : Config) : Bool :=
  match parseUrl (getCobaltApiUrl cfg) with
  | none => false
  | some parsed =>
    if parsed.protocol ≠ "http:" then false
    else isPrivateHostname parsed.hostname

def getAllowedDownloadHosts (cfg : Config) : List String :=
  let hosts := DEFAULT_ALLOWED_DOWNLOAD_HOSTS
  let hosts :=
    match parseUrl (getCobaltApiUrl cfg) with
    | some parsed => hosts ++ [parsed.hostname]
    | none => hosts
  if cfg.cobaltTunnelHost == "" then hosts else hosts ++ [cfg.cobaltTunnelHost]

/-- Validator `isAllowedDownloadUrl` of `cobalt.ts`.  The whole body sits in a
`try`/`catch` returning `false`; the catch is reached when the input does not
parse, and also when the configured Cobalt base URL does not parse (the
un-guarded `new URL(getCobaltApiUrl()).hostname` on line 93). -/
def isAllowedDownloadUrl (cfg : Config) (url : String) : Bool :=
  match parseUrl url with
  | none => false
  | some parsed =>
    let isPrivate := isPrivateCobaltInstance cfg
    if !isPrivate && parsed.protocol ≠ "https:" then false
    else if isPrivate && parsed.protocol ≠ "http:" && parsed.protocol ≠ "https:" then false
    else
      match parseUrl (getCobaltApiUrl cfg) with
      | none => false
      | some cobaltParsed =>
        (getAllowedDownloadHosts cfg).any fun host =>
          if parsed.hostname == host then true
          else if host == cobaltParsed.hostname && isPrivateHostname host then
            parsed.hostname == host
          else jsEndsWith parsed.hostname ("." ++ host)

/-! ## `fetchCobaltAudio` — the allow-listed redirect-following fetcher

The network is modelled as a function `net : String → HttpResp` giving the
response to a GET of each URL; `redirect: "manual"` means 3xx responses come
back unfollowed.  The run returns the outcome together with the list of URLs
actually requested, in order. -/

structure HttpResp where
  status : Nat
  location : Option String := none
  bodyLen : Nat := 0
deriving Repr, DecidableEq

def HttpResp.isRedirect (r : HttpResp) : Bool :=
  300 ≤ r.status && r.status < 400

/-- Field `response.ok` of the platform fetch API. -/
def HttpResp.ok (r : HttpResp) : Bool :=
  200 ≤ r.status && r.status < 300

/-- The `CobaltError`s thrown by `fetchCobaltAudio`, one constructor per
`throw` site, plus `urlParse` for the `TypeError` raised by
`new URL(downloadUrl).hostname` in the telemetry call that precedes
`throw error` when the rejected input itself does not parse. -/
inductive FetchErr where
  /-- Message "Invalid download URL from Cobalt" -/
  | invalidDownloadUrl
  /-- The `TypeError` escaping from `new URL(downloadUrl)` inside the
  `Sentry.captureException` extras, evaluated before `throw error`. -/
  | urlParse
  /-- Message "Redirect without location header" -/
  | noLocation
  /-- Message "Redirect to disallowed URL blocked" -/
  | disallowedRedirect
  /-- Message "Failed to download from Cobalt: `status`" -/
  | httpStatus (status : Nat)
  /-- Message "Too many redirects" -/
  | tooManyRedirects
deriving Repr, DecidableEq

/-- Outcome of `fetchCobaltAudio`: the final URL the body was read from and
its byte length, or the error thrown. -/
abbrev FetchResult := Except FetchErr (String × Nat) × List String

/-- The `while (redirectCount < MAX_REDIRECTS)` loop of `fetchCobaltAudio`,
with `fuel = MAX_REDIRECTS - redirectCount`; when the fuel is exhausted the
loop exits and "Too many redirects" is thrown without another request. -/
def redirectLoop (cfg : Config) (net : String → HttpResp) :
    String → Nat → FetchResult
  | _, 0 => (.error .tooManyRedirects, [])
  | currentUrl, fuel + 1 =>
    let resp := net currentUrl
    if resp.isRedirect then
      match resp.location with
      | none => (.error .noLocation, [currentUrl])
      | some location =>
        let redirectUrl := resolveUrl location currentUrl
        if isAllowedDownloadUrl cfg redirectUrl then
          let next := redirectLoop cfg net redirectUrl fuel
          (next.1, currentUrl :: next.2)
        else (.error .disallowedRedirect, [currentUrl])
    else if !resp.ok then (.error (.httpStatus resp.status), [currentUrl])
    else (.ok (currentUrl, resp.bodyLen), [currentUrl])

/-- Download phase `fetchCobaltAudio`.  The initial URL is validated before
any request; a rejected URL yields the invalid-target `CobaltError` if it
parses, and the telemetry `TypeError` if it does not.  Progress reporting
does not affect the outcome and is modelled in the controller. -/
def fetchCobaltAudio (cfg : Config) (net : String → HttpResp)
    (downloadUrl : String) : FetchResult :=
  if isAllowedDownloadUrl cfg downloadUrl then
    redirectLoop cfg net downloadUrl MAX_REDIRECTS
  else
    match parseUrl downloadUrl with
    | some _ => (.error .invalidDownloadUrl, [])
    | none => (.error .urlParse, [])

/-! ## `requestCobaltAudio` — error-code classification -/

structure ParsedErrorCode where
  message : String
  isAuth : Bool
  isRateLimit : Bool
  isUnavailable : Bool
deriving Repr, DecidableEq

/-- Classification `parseErrorCode` of `cobalt.ts`, an ordered substring-pattern table. -/
def parseErrorCode (code : String) : ParsedErrorCode :=
  if jsIncludes code "auth" then
    ⟨"Cobalt requires authentication. Set COBALT_API_URL to a self-hosted instance.",
      true, false, false⟩
  else if jsIncludes code "rate" then
    ⟨"Cobalt rate limit exceeded", false, true, false⟩
  else if jsIncludes code "video.unavailable" || jsIncludes code "content.unavailable" then
    ⟨"This video is unavailable or cannot be downloaded", false, false, true⟩
  else if jsIncludes code "youtube.login" || jsIncludes code "youtube.token" then
    ⟨"YouTube requires authentication. The server may need session tokens configured.",
      true, false, false⟩
  else if jsIncludes code "youtube.bot" || jsIncludes code "youtube.captcha" then
    ⟨"YouTube detected bot activity. Try again later.", false, false, true⟩
  else if jsIncludes code "invalid_body" then
    ⟨"Invalid request sent to Cobalt", false, false, false⟩
  else
    ⟨"Cobalt error: " ++ code, false, false, false⟩

/-- The `CobaltError` value thrown by `requestCobaltAudio`. -/
structure CobaltErrorV where
  message : String
  isRateLimit : Bool := false
  isUnavailable : Bool := false
  isAuthRequired : Bool := false
  errorCode : Option String := none
deriving Repr, DecidableEq

/-- The body of a Cobalt API response once JSON-parsed; `other` covers the
defensive "unexpected status" branch. -/
inductive CobaltBody where
  | tunnel (url : String)
  | redirect (url : String)
  | errorBody (code : String)
  | other (status : String)
deriving Repr, DecidableEq

/-- A primary-provider HTTP response: status plus the parsed JSON body
(`none` models a body that fails to parse). -/
structure CobaltApiResp where
  status : Nat
  body : Option CobaltBody
deriving Repr, DecidableEq

def CobaltApiResp.ok (r : CobaltApiResp) : Bool :=
  200 ≤ r.status && r.status < 300

/-- Request phase `requestCobaltAudio` of `cobalt.ts`, modelled from the point the
provider response is available (the happy path returns the tunnel/redirect
URL; every other path throws a `CobaltError`). -/
def requestCobaltAudio (resp : CobaltApiResp) : Except CobaltErrorV String :=
  if resp.status = 429 then
    .error ⟨"Cobalt rate limit exceeded", true, false, false, none⟩
  else if resp.status = 401 || resp.status = 403 then
    .error ⟨"Cobalt requires authentication. Set COBALT_API_URL to a self-hosted instance.",
      false, false, true, none⟩
  else
    match resp.body with
    | none =>
      .error ⟨"Cobalt returned invalid response (status " ++ toString resp.status ++ ")",
        false, 500 ≤ resp.status, false,
        some ("http_" ++ toString resp.status ++ "_parse_error")⟩
    | some body =>
      let isErrorBody := match body with | .errorBody _ => true | _ => false
      if !resp.ok || isErrorBody then
        let errorCode :=
          match body with
          | .errorBody code => code
          | _ => "http_" ++ toString resp.status
        let parsed := parseErrorCode errorCode
        .error ⟨parsed.message, parsed.isRateLimit,
          parsed.isUnavailable || 500 ≤ resp.status, parsed.isAuth, some errorCode⟩
      else
        match body with
        | .tunnel url => .ok url
        | .redirect url => .ok url
        | .errorBody _ =>
          -- unreachable (an error body takes the branch above); in the source
          -- it would fall through to the "unexpected status" throw
          .error ⟨"Unexpected Cobalt response status: error", false, false, false,
            some "unexpected_status_error"⟩
        | .other st =>
          .error ⟨"Unexpected Cobalt response status: " ++ st, false, false, false,
            some ("unexpected_status_" ++ st)⟩

/-! ## `src/lib/yt-token.ts` — the single-flight PO-token cache

The module-level mutable state (`cached`, `lastFailedAt`, `inFlight`) becomes
an explicit `TokState`.  Under cooperative Node scheduling the synchronous
prefix of `fetchPoToken` (up to the first `await` of the generation IIFE)
runs atomically, so each call is one step; the settling of the in-flight
generation (success, incomplete data, or throw/timeout of the generator) is a
separate step.  Generations are numbered by `nextGen` so that "the same
in-flight handle" is expressible. -/

structure PoTokenResult where
  poToken : String
  visitorData : String
deriving Repr, DecidableEq

structure CachedTok where
  result : PoTokenResult
  fetchedAt : Nat
deriving Repr, DecidableEq

structure TokState where
  cached : Option CachedTok
  lastFailedAt : Nat
  inFlight : Option Nat
  nextGen : Nat
deriving Repr, DecidableEq

def CACHE_TTL_MS : Nat := 50 * 60 * 1000
def GENERATION_TIMEOUT_MS : Nat := 30000
def FAILURE_BACKOFF_MS : Nat := 30000

/-- Predicate `isCacheValid` of `yt-token.ts` (times in ms; `now ≥ fetchedAt`). -/
def isCacheValid (now : Nat) (s : TokState) : Bool :=
  match s.cached with
  | some c => now - c.fetchedAt < CACHE_TTL_MS
  | none => false

/-- Reset `clearCache` of `yt-token.ts`: it assigns `cached = null` and
`lastFailedAt = 0` — and nothing else. -/
def clearCache (s : TokState) : TokState :=
  { s with cached := none, lastFailedAt := 0 }

/-- What a `fetchPoToken` call returns synchronously: an immediate value
(valid cache, backoff-path stale value, or null) or the pending in-flight
promise of the in-flight generation. -/
inductive CallObs where
  | value (v : Option PoTokenResult)
  | joined (gen : Nat)
deriving Repr, DecidableEq

/-- The synchronous prefix of one `fetchPoToken` call at time `now`. -/
def stepCall (s : TokState) (now : Nat) : TokState × CallObs :=
  if isCacheValid now s then
    (s, .value (s.cached.map (·.result)))
  else
    match s.inFlight with
    | some gen => (s, .joined gen)
    | none =>
      if s.lastFailedAt ≠ 0 && now - s.lastFailedAt < FAILURE_BACKOFF_MS then
        match s.cached with
        | some c => (s, .value (some c.result))
        | none => (s, .value none)
      else
        ({ s with inFlight := some s.nextGen, nextGen := s.nextGen + 1 },
          .joined s.nextGen)

/-- How the awaited `generateWithTimeout()` settles. -/
inductive GenOutcome where
  /-- the generator resolved with this result (possibly with empty fields) -/
  | success (t : PoTokenResult)
  /-- the generator threw or the 30s timeout fired -/
  | errorOut
deriving Repr, DecidableEq

/-- The in-flight generation settles at time `now`: the body of the async
IIFE after its `await`, including the `finally { inFlight = null }`.
Returns the value delivered to every caller holding the in-flight promise. -/
def stepGenDone (s : TokState) (now : Nat) (out : GenOutcome) :
    TokState × Option PoTokenResult :=
  match out with
  | .success t =>
    if t.poToken == "" || t.visitorData == "" then
      ({ s with lastFailedAt := now, inFlight := none }, none)
    else
      ({ s with cached := some ⟨t, now⟩, lastFailedAt := 0, inFlight := none }, some t)
  | .errorOut =>
    ({ s with lastFailedAt := now, inFlight := none },
      match s.cached with
      | some c => some c.result
      | none => none)

/-- A scheduled event for the token cache. -/
inductive TokEv where
  | call (now : Nat)
  | genDone (now : Nat) (out : GenOutcome)
deriving Repr, DecidableEq

/-- Observation of one event: what a caller got, or which generation settled
with which value. -/
inductive TokObs where
  | fromCall (o : CallObs)
  | settled (gen : Option Nat) (v : Option PoTokenResult)
deriving Repr, DecidableEq

def stepTok (s : TokState) : TokEv → TokState × TokObs
  | .call now =>
    let (s2, o) := stepCall s now
    (s2, .fromCall o)
  | .genDone now out =>
    let gen := s.inFlight
    let (s2, v) := stepGenDone s now out
    (s2, .settled gen v)

def runTok (s : TokState) : List TokEv → TokState × List TokObs
  | [] => (s, [])
  | e :: es =>
    let (s2, o) := stepTok s e
    let (s3, os) := runTok s2 es
    (s3, o :: os)

/-- The initial module state of a fresh process. -/
def tokInit : TokState := ⟨none, 0, none, 0⟩

/-! ## `src/lib/musicbrainz.ts` — release and genre selection -/

structure MusicBrainzRelease where
  id : String
  /-- Field `release-group`.`primary-type`, when present -/
  primaryType : Option String := none
deriving Repr, DecidableEq

structure MusicBrainzTag where
  name : String
  count : Nat
deriving Repr, DecidableEq

/-- Selection `pickBestRelease`: the first release whose release-group primary type is
"Album", else `releases[0]` (`none` only on an empty list, where the source
would return `undefined`). -/
def pickBestRelease (releases : List MusicBrainzRelease) : Option MusicBrainzRelease :=
  match releases.find? (fun r => r.primaryType = some "Album") with
  | some album => some album
  | none => releases.head?

/-- The callback of `tags.reduce` in `extractGenre`: keep the accumulator
unless the candidate count is strictly greater. -/
def pickTag (best tag : MusicBrainzTag) : MusicBrainzTag :=
  if tag.count > best.count then tag else best

/-- Selection `extractGenre`: `reduce` without a seed starts from the first element;
the empty/absent cases are guarded to `""`. -/
def extractGenre (tags : Option (List MusicBrainzTag)) : String :=
  match tags with
  | none => ""
  | some [] => ""
  | some (t :: ts) => (ts.foldl pickTag t).name

/-! ## `src/routes/api/download-stream/+server.ts` — the controller

The `ReadableStream` `start` body is embedded as a deterministic run over a
`ControllerEnv` describing the outcome of each collaborator call (metadata
fetch, Cobalt request+download, yt-dlp process events, filesystem).  The SSE
channel is the pair of an `isClosed` flag and the list of items enqueued, and
`send`/`closeStream` are translated verbatim.  Float arithmetic in progress
percentages is modelled over `Nat` (round-half-up for `Math.round`, `Nat.log`
for `Math.log10`); no claim depends on those numeric values. -/

inductive SseEvent where
  | status (message : String)
  | info (title artist track : String)
  | progress (percent : Nat)
  /-- the yt-dlp progress events additionally carry speed and eta -/
  | progressSpd (percent : Nat) (speed eta : String)
  | metadataEv (album year genre trackNumber label : String) (hasArtwork : Bool)
  | eventPass (eventType eventData : String)
  | error (message : String)
  | complete (filename : String) (size : Nat) (downloadMethod : String)
deriving Repr, DecidableEq

inductive TraceItem where
  | ev (e : SseEvent)
  | close
deriving Repr, DecidableEq

structure StreamState where
  isClosed : Bool
  out : List TraceItem
deriving Repr, DecidableEq

/-- Emit `send`: enqueue unless the stream is marked closed. -/
def send (s : StreamState) (e : SseEvent) : StreamState :=
  if s.isClosed then s else { s with out := s.out ++ [.ev e] }

/-- Close `closeStream`: mark closed and close the controller, once. -/
def closeStream (s : StreamState) : StreamState :=
  if s.isClosed then s else ⟨true, s.out ++ [.close]⟩

/-- The bare `controller.close()` on the file-not-found path (line 448),
which closes the transport without setting `isClosed`. -/
def rawClose (s : StreamState) : StreamState :=
  { s with out := s.out ++ [.close] }

def apos : String := String.singleton (Char.ofNat 39)

/-- Rewrite `parseYtDlpError`: the user-facing message table keyed on substrings of
the raw error text. -/
def parseYtDlpError (errorMessage : String) : String :=
  let lowerMessage := jsToLower errorMessage
  if jsIncludes lowerMessage ("sign in to confirm you" ++ apos ++ "re not a bot")
      || jsIncludes lowerMessage "cookies" then
    "This video requires authentication. Please try a different video or try again later."
  else if jsIncludes lowerMessage "video unavailable" then
    "This video is unavailable or private."
  else if jsIncludes lowerMessage "age-restricted"
      || jsIncludes lowerMessage "confirm your age"
      || jsIncludes lowerMessage "verify your age" then
    "This video is age-restricted and cannot be downloaded."
  else if jsIncludes lowerMessage "copyright" then
    "This video is blocked due to copyright restrictions."
  else if jsIncludes lowerMessage "private" then
    "This video is private and cannot be downloaded."
  else
    "Download failed. Please try a different video."

/-- Filename-unsafe characters stripped or replaced by the controller. -/
def badFileChar (c : Char) : Bool :=
  c = '<' || c = '>' || c = ':' || c = '"' || c = '/' || c = '\\' ||
  c = '|' || c = '?' || c = '*'

/-- Model of `.replace(/[<>:"\/\\|?*]/g, "").trim()` -/
def stripBadChars (s : String) : String :=
  jsTrim (String.mk (s.toList.filter (fun c => !badFileChar c)))

def collapseStep (acc : List Char) (c : Char) : List Char :=
  if c = '_' && acc.head? = some '_' then acc else c :: acc

/-- Model of `.replace(/_+/g, "_")` -/
def collapseUnderscores (s : String) : String :=
  String.mk ((s.toList.foldl collapseStep []).reverse)

/-- Model of `.replace(/[<>:"\/\\|?*]/g, "_").replace(/_+/g, "_")` -/
def underscoreName (s : String) : String :=
  collapseUnderscores (String.mk (s.toList.map (fun c => if badFileChar c then '_' else c)))

/-- Model of `.replace(/_/g, " ")` applied to recovered titles. -/
def underscoresToSpaces (s : String) : String :=
  String.mk (s.toList.map (fun c => if c = '_' then ' ' else c))

/-- The deterministic final-filename derivation of the `complete` event. -/
def computeFilename (videoTitle artist trackTitle : String) : String :=
  if !(artist == "") && !(trackTitle == "") then
    let safeArtist := stripBadChars artist
    let safeTrack := stripBadChars trackTitle
    if !(safeArtist == "") && !(safeTrack == "") then
      safeArtist ++ " - " ++ safeTrack ++ ".mp3"
    else
      underscoreName (if videoTitle == "" then "audio" else videoTitle) ++ ".mp3"
  else if !(videoTitle == "") then underscoreName videoTitle ++ ".mp3"
  else "audio.mp3"

/-- The title-recovery heuristics of `video-utils.ts` and the two inline
regexes of the `ytDlpEvent` handler, plus `formatBytes` (absent from the
provided sources), kept abstract: the claims under verification do not
depend on their outputs, so every theorem below holds for any choice. -/
structure Helpers where
  parseArtistAndTitle : String → String × String
  sanitizeUploaderAsArtist : String → String
  /-- the match of the anchored regex capturing a filename before the final
  extension on "Destination" events -/
  destinationMatch : String → Option String
  /-- the match of the unanchored filename-shaped regex used when the event
  text mentions ".mp3" or ".webm" -/
  fileLikeMatch : String → Option String
  formatBytes : Nat → String

structure TrackMetadataR where
  album : String
  year : String
  genre : String
  trackNumber : String
  label : String
deriving Repr, DecidableEq

structure EnrichmentResult where
  metadata : Option TrackMetadataR
  hasArtwork : Bool

/-- Outcome of the initial oEmbed metadata fetch. -/
inductive MetaOutcome where
  | available (videoTitle artist trackTitle uploader : String)
  /-- Outcome `YouTubeMetadataError` with `isUnavailable` -/
  | unavailableErr
  /-- any other metadata failure: logged, handler continues -/
  | otherErr

/-- One progress callback from `fetchCobaltAudio`. -/
structure CobaltProg where
  bytesReceived : Nat
  totalBytes : Option Nat
  percent : Nat
deriving Repr, DecidableEq

/-- How the primary-provider attempt (request + download) plays out.  The
message strings are the messages of the thrown errors; they cover every kind
in the error taxonomy, since the catch in the controller is type-agnostic. -/
inductive CobaltOutcome where
  | requestFailed (message : String)
  | fetchFailed (progressEvents : List CobaltProg) (message : String)
  | fetched (progressEvents : List CobaltProg) (byteLength : Nat)

structure YtProgress where
  percent : Nat
  speed : String
  eta : String
deriving Repr, DecidableEq

inductive YtEv where
  | progress (p : YtProgress)
  | ytDlpEvent (eventType eventData : String)
  | stderrData (text : String)
deriving Repr, DecidableEq

inductive YtTermination where
  | closed (code : Nat)
  /-- the process emitted an "error" event with this message -/
  | procError (message : String)
deriving Repr, DecidableEq

structure ControllerEnv where
  meta : MetaOutcome
  cobalt : CobaltOutcome
  ytEvents : List YtEv
  ytEnd : YtTermination
  fileExists : Bool
  fileSize : Nat
  enrich : String → String → String → EnrichmentResult

structure ControllerResult where
  stream : StreamState
  cobaltFailed : Bool
  downloadMethod : String

/-- The `onProgress` callback passed to `fetchCobaltAudio` (the JS truthiness
test on `p.totalBytes` treats both `null` and `0` as absent). -/
def sendCobaltProgress (hp : Helpers) : StreamState → List CobaltProg → StreamState
  | s, [] => s
  | s, p :: rest =>
    let s :=
      if p.totalBytes.getD 0 ≠ 0 then
        send s (.progress (5 + (p.percent * 70 + 50) / 100))
      else
        let pseudo := min 70 (10 * Nat.log 10 (1 + p.bytesReceived))
        let s := send s (.progress (5 + pseudo))
        send s (.status ("Downloading... (" ++ hp.formatBytes p.bytesReceived ++ ")"))
    sendCobaltProgress hp s rest

/-- Mutable locals of the yt-dlp event handlers. -/
structure YtFoldState where
  stream : StreamState
  videoTitle : String
  artist : String
  trackTitle : String
  enrichment : EnrichmentResult
  errorMessage : String

/-- One yt-dlp process event: the `progress`, `ytDlpEvent` and stderr
handlers registered on the download process. -/
def stepYtEv (hp : Helpers) (enrichF : String → String → String → EnrichmentResult)
    (videoId uploader : String) (st : YtFoldState) : YtEv → YtFoldState
  | .progress p =>
    let pc := 5 + ((min 100 p.percent) * 70 + 50) / 100
    { st with stream := send st.stream (.progressSpd pc p.speed p.eta) }
  | .ytDlpEvent eventType eventData =>
    let st :=
      if st.videoTitle == "" then
        let newTitle : Option String :=
          if eventType = "Destination" then
            (hp.destinationMatch eventData).map underscoresToSpaces
          else if jsIncludes eventData ".mp3" || jsIncludes eventData ".webm" then
            (hp.fileLikeMatch eventData).map underscoresToSpaces
          else none
        match newTitle with
        | none => st
        | some t =>
          let parsed := hp.parseArtistAndTitle t
          let artist :=
            if parsed.1 == "" && !(uploader == "") then
              hp.sanitizeUploaderAsArtist uploader
            else parsed.1
          let trackTitle := parsed.2
          let stream := send st.stream (.info t artist trackTitle)
          let enrichment :=
            if !(artist == "") && !(trackTitle == "") then enrichF artist trackTitle videoId
            else st.enrichment
          { st with stream := stream, videoTitle := t, artist := artist,
                    trackTitle := trackTitle, enrichment := enrichment }
      else st
    { st with stream := send st.stream (.eventPass eventType eventData) }
  | .stderrData text =>
    if jsIncludes text "ERROR:" then
      { st with errorMessage := st.errorMessage ++ text }
    else st

/-- Tail of the run once audio bytes exist on disk (or not): existence check,
metadata event, tagging (no events), progress, and the terminal `complete`. -/
def contFinish (env : ControllerEnv) (s : StreamState)
    (videoTitle artist trackTitle : String) (enrichment : EnrichmentResult)
    (cobaltFailed : Bool) (method : String) : ControllerResult :=
  if !env.fileExists then
    let s := send s (.error "Download completed but file not found")
    ⟨rawClose s, cobaltFailed, method⟩
  else
    let s := send s (.progress 78)
    let s := send s (.status "Processing metadata...")
    let s :=
      match enrichment.metadata with
      | some m =>
        send s (.metadataEv m.album m.year m.genre m.trackNumber m.label enrichment.hasArtwork)
      | none => s
    let s := send s (.progress 85)
    let s := send s (.status "Preparing download...")
    let s := send s (.progress 88)
    let s := send s (.progress 95)
    let s := send s (.complete (computeFilename videoTitle artist trackTitle) env.fileSize method)
    ⟨closeStream s, cobaltFailed, method⟩

/-- The fallback (yt-dlp) section: runs only from a failed primary attempt.
On a process "error" event the first listener sends an error event and the
second rejects the awaited promise, whose rejection lands in the outer catch
and sends the same parsed message again before closing. -/
def contFallback (hp : Helpers) (env : ControllerEnv) (videoId : String)
    (s : StreamState) (videoTitle artist trackTitle uploader : String)
    (enrichment : EnrichmentResult) : ControllerResult :=
  let s := send s (.status "Starting download...")
  let st0 : YtFoldState := ⟨s, videoTitle, artist, trackTitle, enrichment, ""⟩
  let st := env.ytEvents.foldl (stepYtEv hp env.enrich videoId uploader) st0
  match env.ytEnd with
  | .procError msg =>
    let s := send st.stream (.error (parseYtDlpError msg))
    let s := send s (.error (parseYtDlpError msg))
    ⟨closeStream s, true, "yt-dlp"⟩
  | .closed code =>
    if code ≠ 0 then
      let raw :=
        if st.errorMessage == "" then "Process exited with code " ++ toString code
        else st.errorMessage
      let s := send st.stream (.error (parseYtDlpError raw))
      ⟨closeStream s, true, "yt-dlp"⟩
    else
      contFinish env st.stream st.videoTitle st.artist st.trackTitle st.enrichment true "yt-dlp"

/-- From the point metadata is settled: kick off enrichment, attempt the
primary provider, decide on fallback (a zero-length payload counts as a
failure), finish. -/
def contAfterMeta (hp : Helpers) (env : ControllerEnv) (videoId : String)
    (s : StreamState) (videoTitle artist trackTitle uploader : String) : ControllerResult :=
  let enrichment :=
    if !(artist == "") && !(trackTitle == "") then env.enrich artist trackTitle videoId
    else env.enrich "" "" videoId
  let s := send s (.status "Trying fast download...")
  match env.cobalt with
  | .requestFailed _ =>
    contFallback hp env videoId s videoTitle artist trackTitle uploader enrichment
  | .fetchFailed prog _ =>
    let s := send s (.progress 5)
    let s := sendCobaltProgress hp s prog
    contFallback hp env videoId s videoTitle artist trackTitle uploader enrichment
  | .fetched prog len =>
    let s := send s (.progress 5)
    let s := sendCobaltProgress hp s prog
    if len = 0 then
      contFallback hp env videoId s videoTitle artist trackTitle uploader enrichment
    else
      let s := send s (.progress 75)
      contFinish env s videoTitle artist trackTitle enrichment false "cobalt"

/-- The `start` body of the SSE `ReadableStream` for one request. -/
def runController (hp : Helpers) (env : ControllerEnv) (videoId : String) : ControllerResult :=
  let s : StreamState := ⟨false, []⟩
  let s := send s (.status "Getting video info...")
  match env.meta with
  | .available vt ar tt up =>
    let s := send s (.info vt ar tt)
    contAfterMeta hp env videoId s vt ar tt up
  | .unavailableErr =>
    let s := send s (.error "Video not found or unavailable")
    ⟨closeStream s, false, "yt-dlp"⟩
  | .otherErr =>
    contAfterMeta hp env videoId s "" "" "" ""

/-! ## Theorems -/

/-! ### C8 — release and genre selection -/

/-- The largest occurrence count among a tag list. -/
def maxCount (l : List MusicBrainzTag) : Nat :=
  l.foldr (fun t m => max t.count m) 0

/-- The first tag attaining the maximal count: the reading the specification
gives of
"highest occurrence count, ties resolved to the first encountered". -/
def firstMaxTag (l : List MusicBrainzTag) : Option MusicBrainzTag :=
  l.find? (fun t => t.count == maxCount l)

lemma maxCount_cons (t : MusicBrainzTag) (l : List MusicBrainzTag) :
    maxCount (t :: l) = max t.count (maxCount l) := rfl

lemma count_le_maxCount {l : List MusicBrainzTag} {u : MusicBrainzTag}
    (hu : u ∈ l) : u.count ≤ maxCount l := by
  induction l with
  | nil => cases hu
  | cons a l ih =>
    rw [maxCount_cons]
    rcases List.mem_cons.mp hu with h | h
    · subst h; exact Nat.le_max_left _ _
    · exact le_trans (ih h) (Nat.le_max_right _ _)

lemma firstMaxTag_cons_cons (t x : MusicBrainzTag) (xs : List MusicBrainzTag) :
    firstMaxTag (t :: x :: xs) = firstMaxTag (pickTag t x :: xs) := by
  unfold pickTag
  by_cases hlt : x.count > t.count
  · simp only [hlt, if_true]
    have hC : maxCount (t :: x :: xs) = maxCount (x :: xs) := by
      rw [maxCount_cons, maxCount_cons]
      exact max_eq_right (le_trans (le_of_lt hlt) (le_max_left _ _))
    unfold firstMaxTag
    rw [hC]
    rw [List.find?_cons_of_neg]
    have : t.count ≠ maxCount (x :: xs) := by
      rw [maxCount_cons]; omega
    simpa using this
  · simp only [hlt, if_false]
    have hC : maxCount (t :: x :: xs) = maxCount (t :: xs) := by
      rw [maxCount_cons, maxCount_cons, maxCount_cons]
      rw [← max_assoc, max_eq_left (not_lt.mp hlt)]
    unfold firstMaxTag
    rw [hC]
    by_cases ht : t.count = maxCount (t :: xs)
    · rw [List.find?_cons_of_pos, List.find?_cons_of_pos] <;> simpa using ht
    · rw [List.find?_cons_of_neg, List.find?_cons_of_neg, List.find?_cons_of_neg]
      · simpa using ht
      · have : x.count ≠ maxCount (t :: xs) := by
          have hx : x.count ≤ t.count := by omega
          have : t.count ≤ maxCount (t :: xs) := by
            rw [maxCount_cons]; exact Nat.le_max_left _ _
          omega
        simpa using this
      · simpa using ht

lemma foldl_pickTag_firstMax :
    ∀ (ts : List MusicBrainzTag) (t : MusicBrainzTag),
      firstMaxTag (t :: ts) = some (ts.foldl pickTag t)
  | [], t => by
    unfold firstMaxTag
    rw [List.find?_cons_of_pos]
    · rfl
    · simp [maxCount_cons, maxCount]
  | x :: xs, t => by
    rw [firstMaxTag_cons_cons]
    simpa using foldl_pickTag_firstMax xs (pickTag t x)

/-- C8: For every non-empty list of releases, selection returns the first
release whose release-group primary type is "Album", else the first release
in provider order; genre selection returns the first tag attaining the
maximal occurrence count; and the concrete example of the specification
(`single-456`/`album-789` with tag `rock`:8) yields `album-789` and `rock`. -/
theorem claim8_release_and_genre_selection :
    (∀ (releases : List MusicBrainzRelease) (a : MusicBrainzRelease),
      releases.find? (fun r => r.primaryType = some "Album") = some a →
      pickBestRelease releases = some a) ∧
    (∀ releases : List MusicBrainzRelease,
      releases.find? (fun r => r.primaryType = some "Album") = none →
      pickBestRelease releases = releases.head?) ∧
    (∀ (t : MusicBrainzTag) (ts : List MusicBrainzTag),
      ∃ m, firstMaxTag (t :: ts) = some m ∧
        extractGenre (some (t :: ts)) = m.name ∧
        m ∈ t :: ts ∧ (∀ u ∈ t :: ts, u.count ≤ m.count)) ∧
    pickBestRelease [⟨"single-456", some "Single"⟩, ⟨"album-789", some "Album"⟩] =
      some ⟨"album-789", some "Album"⟩ ∧
    extractGenre (some [⟨"rock", 8⟩]) = "rock" := by
  refine ⟨?_, ?_, ?_, by decide, rfl⟩
  · intro releases a h
    unfold pickBestRelease
    rw [h]
  · intro releases h
    unfold pickBestRelease
    rw [h]
  · intro t ts
    refine ⟨ts.foldl pickTag t, foldl_pickTag_firstMax ts t, rfl, ?_, ?_⟩
    · have h := foldl_pickTag_firstMax ts t
      exact List.mem_of_find?_eq_some h
    · intro u hu
      have h := foldl_pickTag_firstMax ts t
      have hp := List.find?_some h
      have : (ts.foldl pickTag t).count = maxCount (t :: ts) := by
        simpa using hp
      rw [this]
      exact count_le_maxCount hu

/-- C8 witness: the Album tie-break conjunct applied at a concrete list with
the Album release second. -/
theorem claim8_witness :
    pickBestRelease [⟨"s", some "Single"⟩, ⟨"a", some "Album"⟩, ⟨"b", none⟩] =
      some ⟨"a", some "Album"⟩ :=
  claim8_release_and_genre_selection.1
    [⟨"s", some "Single"⟩, ⟨"a", some "Album"⟩, ⟨"b", none⟩]
    ⟨"a", some "Album"⟩ (by decide)

/-! ### C9 — `clearCache` -/

/-- C9 counterexample: `clearCache` does not clear the in-flight generation
marker — on a state whose generation 7 is in flight, the marker survives the
reset, so the claim that "the entire state is reset … the in-flight
generation marker is cleared" is false. -/
theorem claim9_counterexample :
    (clearCache ⟨none, 5, some 7, 8⟩).inFlight = some 7 ∧
    ¬ (clearCache ⟨none, 5, some 7, 8⟩).inFlight = none := by
  constructor
  · rfl
  · intro h
    simp [clearCache] at h

/-- C9 (amended): `clearCache` clears the cached token and the backoff
timestamp but leaves the in-flight marker (and the generation counter)
untouched; consequently a `fetchPoToken` call made after `clearCache` while a
generation is in flight still joins that old generation instead of behaving
as on a fresh process. -/
theorem claim9_clearCache_resets_cache_and_backoff_only :
    (∀ s : TokState,
      (clearCache s).cached = none ∧
      (clearCache s).lastFailedAt = 0 ∧
      (clearCache s).inFlight = s.inFlight ∧
      (clearCache s).nextGen = s.nextGen) ∧
    (∀ (s : TokState) (gen now : Nat), s.inFlight = some gen →
      stepCall (clearCache s) now = (clearCache s, .joined gen)) := by
  constructor
  · intro s
    exact ⟨rfl, rfl, rfl, rfl⟩
  · intro s gen now h
    unfold stepCall
    have hv : isCacheValid now (clearCache s) = false := by
      simp [isCacheValid, clearCache]
    rw [hv]
    simp only [Bool.false_eq_true, if_false]
    have : (clearCache s).inFlight = some gen := by
      simpa [clearCache] using h
    rw [this]

/-- C9 witness: the joined-generation conjunct at a concrete state with
generation 3 in flight. -/
theorem claim9_witness :
    stepCall (clearCache ⟨none, 44, some 3, 4⟩) 100 =
      (clearCache ⟨none, 44, some 3, 4⟩, .joined 3) :=
  claim9_clearCache_resets_cache_and_backoff_only.2 ⟨none, 44, some 3, 4⟩ 3 100 rfl

/-! ### C10 — totality and fail-closed validation -/

/-- C10: `isAllowedDownloadUrl` is total (it decides every string, modelling
"returns a boolean and never throws"), an input that does not parse as a URL
is rejected, and a configuration whose provider base URL does not parse
rejects every input (the un-guarded re-parse on line 93 lands in the
own catch of the function). -/
theorem claim10_validator_total_fail_closed :
    ∀ (cfg : Config) (url : String),
      (isAllowedDownloadUrl cfg url = true ∨ isAllowedDownloadUrl cfg url = false) ∧
      (parseUrl url = none → isAllowedDownloadUrl cfg url = false) ∧
      (parseUrl (getCobaltApiUrl cfg) = none → isAllowedDownloadUrl cfg url = false) := by
  intro cfg url
  refine ⟨?_, ?_, ?_⟩
  · cases h : isAllowedDownloadUrl cfg url
    · right; rfl
    · left; rfl
  · intro h
    unfold isAllowedDownloadUrl
    rw [h]
  · intro h
    unfold isAllowedDownloadUrl
    cases hp : parseUrl url with
    | none => rfl
    | some parsed =>
      have hpriv : isPrivateCobaltInstance cfg = false := by
        unfold isPrivateCobaltInstance
        rw [h]
      rw [hpriv, h]
      by_cases hs : parsed.protocol = "https:"
      · simp [hs]
      · simp [hs]

/-- C10 witness: a non-URL input and a configuration with a non-URL provider
base are both rejected. -/
theorem claim10_witness :
    isAllowedDownloadUrl {} "not a url" = false ∧
    isAllowedDownloadUrl ⟨"still not a url", "", ""⟩ "https://cobalt.tools/a" = false := by
  constructor
  · exact (claim10_validator_total_fail_closed {} "not a url").2.1 (by decide)
  · exact (claim10_validator_total_fail_closed ⟨"still not a url", "", ""⟩
      "https://cobalt.tools/a").2.2 (by decide)

/-! ### C7 — primary-provider error classification -/

/-- C7 counterexample: the code `"service.unavailable"` contains
`"unavailable"` yet is classified as the generic error, not as unavailable —
`parseErrorCode` matches only `"video.unavailable"` and
`"content.unavailable"`, not every code containing `"unavailable"`. -/
theorem claim7_counterexample :
    jsIncludes "service.unavailable" "unavailable" = true ∧
    (parseErrorCode "service.unavailable").isUnavailable = false ∧
    parseErrorCode "service.unavailable" =
      ⟨"Cobalt error: service.unavailable", false, false, false⟩ := by
  refine ⟨by decide, by decide, by decide⟩

/-- C7 (amended): HTTP 429 yields a rate-limit error and 401/403 an
auth-required error; a structured error code is classified by the ordered
pattern table — `auth` → auth-required, then `rate` → rate-limited, then
`video.unavailable`/`content.unavailable` (not every code containing
`unavailable`) → unavailable, then `youtube.login`/`youtube.token` →
auth-required, then `youtube.bot`/`youtube.captcha` → unavailable, then
`invalid_body` → invalid-request; and a non-429/401/403 response whose body
carries an error code throws the `CobaltError` built from that table. -/
theorem claim7_error_classification :
    (∀ body, ∃ e, requestCobaltAudio ⟨429, body⟩ = .error e ∧ e.isRateLimit = true) ∧
    (∀ (body : Option CobaltBody) (st : Nat), st = 401 ∨ st = 403 →
      ∃ e, requestCobaltAudio ⟨st, body⟩ = .error e ∧ e.isAuthRequired = true) ∧
    (∀ code : String,
      (jsIncludes code "auth" = true →
        (parseErrorCode code).isAuth = true ∧ (parseErrorCode code).isRateLimit = false ∧
          (parseErrorCode code).isUnavailable = false) ∧
      (jsIncludes code "auth" = false → jsIncludes code "rate" = true →
        (parseErrorCode code).isRateLimit = true) ∧
      (jsIncludes code "auth" = false → jsIncludes code "rate" = false →
        (jsIncludes code "video.unavailable" = true ∨
         jsIncludes code "content.unavailable" = true) →
        (parseErrorCode code).isUnavailable = true) ∧
      (jsIncludes code "auth" = false → jsIncludes code "rate" = false →
        jsIncludes code "video.unavailable" = false →
        jsIncludes code "content.unavailable" = false →
        (jsIncludes code "youtube.login" = true ∨ jsIncludes code "youtube.token" = true) →
        (parseErrorCode code).isAuth = true) ∧
      (jsIncludes code "auth" = false → jsIncludes code "rate" = false →
        jsIncludes code "video.unavailable" = false →
        jsIncludes code "content.unavailable" = false →
        jsIncludes code "youtube.login" = false → jsIncludes code "youtube.token" = false →
        (jsIncludes code "youtube.bot" = true ∨ jsIncludes code "youtube.captcha" = true) →
        (parseErrorCode code).isUnavailable = true) ∧
      (jsIncludes code "auth" = false → jsIncludes code "rate" = false →
        jsIncludes code "video.unavailable" = false →
        jsIncludes code "content.unavailable" = false →
        jsIncludes code "youtube.login" = false → jsIncludes code "youtube.token" = false →
        jsIncludes code "youtube.bot" = false → jsIncludes code "youtube.captcha" = false →
        jsIncludes code "invalid_body" = true →
        (parseErrorCode code).message = "Invalid request sent to Cobalt")) ∧
    (∀ (code : String) (st : Nat), st ≠ 429 → st ≠ 401 → st ≠ 403 →
      requestCobaltAudio ⟨st, some (.errorBody code)⟩ =
        .error ⟨(parseErrorCode code).message, (parseErrorCode code).isRateLimit,
          (parseErrorCode code).isUnavailable || 500 ≤ st,
          (parseErrorCode code).isAuth, some code⟩) := by
  refine ⟨?_, ?_, ?_, ?_⟩
  · intro body
    exact ⟨_, rfl, rfl⟩
  · intro body st hst
    rcases hst with h | h <;> subst h
    · exact ⟨_, rfl, rfl⟩
    · exact ⟨_, rfl, rfl⟩
  · intro code
    refine ⟨?_, ?_, ?_, ?_, ?_, ?_⟩
    · intro h1
      simp [parseErrorCode, h1]
    · intro h1 h2
      simp [parseErrorCode, h1, h2]
    · intro h1 h2 h3
      rcases h3 with h3 | h3 <;> simp [parseErrorCode, h1, h2, h3]
    · intro h1 h2 h3 h4 h5
      rcases h5 with h5 | h5 <;> simp [parseErrorCode, h1, h2, h3, h4, h5]
    · intro h1 h2 h3 h4 h5 h6 h7
      rcases h7 with h7 | h7 <;> simp [parseErrorCode, h1, h2, h3, h4, h5, h6, h7]
    · intro h1 h2 h3 h4 h5 h6 h7 h8 h9
      simp [parseErrorCode, h1, h2, h3, h4, h5, h6, h7, h8, h9]
  · intro code st h429 h401 h403
    simp [requestCobaltAudio, h429, h401, h403]

/-- C7 witness: classification applied at HTTP 429, at HTTP 403, at the code
`"error.api.auth.jwt.missing"`, and at an error-body response with status
200. -/
theorem claim7_witness :
    (∃ e, requestCobaltAudio ⟨429, none⟩ = .error e ∧ e.isRateLimit = true) ∧
    (∃ e, requestCobaltAudio ⟨403, none⟩ = .error e ∧ e.isAuthRequired = true) ∧
    (parseErrorCode "error.api.auth.jwt.missing").isAuth = true ∧
    requestCobaltAudio ⟨200, some (.errorBody "error.fetch.fail")⟩ =
      .error ⟨"Cobalt error: error.fetch.fail", false, false, false,
        some "error.fetch.fail"⟩ := by
  refine ⟨claim7_error_classification.1 none,
    claim7_error_classification.2.1 none 403 (Or.inr rfl), ?_, ?_⟩
  · exact ((claim7_error_classification.2.2.1 "error.api.auth.jwt.missing").1
      (by decide)).1
  · have h := claim7_error_classification.2.2.2 "error.fetch.fail" 200
      (by decide) (by decide) (by decide)
    simpa using h

/-! ### C4 — no 2×TTL bound exists in the code -/

/-- C4 counterexample: a token generated and cached at t = 1 ms is served at
t = 6000003 ms (to the caller that joined the failed regeneration) and again
at t = 6000004 ms (on the backoff path), although its age exceeds
2×TTL = 6000000 ms — `fetchPoToken` has no `2×TTL` usable-window check on
either path. -/
theorem claim4_counterexample :
    (runTok tokInit
      [.call 0, .genDone 1 (.success ⟨"tok", "vd"⟩), .call 6000002,
       .genDone 6000003 .errorOut, .call 6000004]).2 =
      [.fromCall (.joined 0), .settled (some 0) (some ⟨"tok", "vd"⟩),
       .fromCall (.joined 1), .settled (some 1) (some ⟨"tok", "vd"⟩),
       .fromCall (.value (some ⟨"tok", "vd"⟩))] ∧
    (runTok tokInit
      [.call 0, .genDone 1 (.success ⟨"tok", "vd"⟩), .call 6000002,
       .genDone 6000003 .errorOut, .call 6000004]).1.cached =
      some ⟨⟨"tok", "vd"⟩, 1⟩ ∧
    6000003 - 1 > 2 * CACHE_TTL_MS ∧ 6000004 - 1 > 2 * CACHE_TTL_MS := by
  refine ⟨by decide, by decide, by decide, by decide⟩

/-- C4 (amended): on the backoff path and on the stale-fallback path after a
generation failure, `fetchPoToken` returns the cached token whenever a cache
entry exists, with no upper bound on its age (tokens older than 2×TTL
included); only when no cache entry exists do those paths return none. -/
theorem claim4_stale_paths_have_no_age_bound :
    (∀ (s : TokState) (now : Nat),
      s.inFlight = none →
      isCacheValid now s = false →
      s.lastFailedAt ≠ 0 →
      now - s.lastFailedAt < FAILURE_BACKOFF_MS →
      (∀ c, s.cached = some c → stepCall s now = (s, .value (some c.result))) ∧
      (s.cached = none → stepCall s now = (s, .value none))) ∧
    (∀ (s : TokState) (now : Nat) (c : CachedTok),
      s.cached = some c →
      (stepGenDone s now .errorOut).2 = some c.result) := by
  constructor
  · intro s now hin hcv hlf hbk
    constructor
    · intro c hc
      simp [stepCall, hcv, hin, hlf, hbk, hc]
    · intro hc
      simp [stepCall, hcv, hin, hlf, hbk, hc]
  · intro s now c hc
    simp [stepGenDone, hc]

/-- C4 witness: the backoff path serves a token whose age (7000005 ms)
exceeds 2×TTL, at a concrete state. -/
theorem claim4_witness :
    stepCall ⟨some ⟨⟨"t", "v"⟩, 0⟩, 7000000, none, 3⟩ 7000005 =
      (⟨some ⟨⟨"t", "v"⟩, 0⟩, 7000000, none, 3⟩, .value (some ⟨"t", "v"⟩)) ∧
    7000005 - 0 > 2 * CACHE_TTL_MS := by
  refine ⟨?_, by decide⟩
  exact ((claim4_stale_paths_have_no_age_bound.1
    ⟨some ⟨⟨"t", "v"⟩, 0⟩, 7000000, none, 3⟩ 7000005 rfl (by decide) (by decide)
    (by decide)).1 ⟨⟨"t", "v"⟩, 0⟩ rfl)

/-! ### C3 — single flight -/

lemma runTok_calls_join_inflight (s : TokState) (gen : Nat)
    (hin : s.inFlight = some gen) :
    ∀ ts : List Nat, (∀ t ∈ ts, isCacheValid t s = false) →
      runTok s (ts.map .call) = (s, ts.map (fun _ => .fromCall (.joined gen))) := by
  intro ts
  induction ts with
  | nil => intro _; rfl
  | cons t ts ih =>
    intro h
    have hcv : isCacheValid t s = false := h t (List.mem_cons_self t ts)
    have step : stepTok s (.call t) = (s, .fromCall (.joined gen)) := by
      simp [stepTok, stepCall, hcv, hin]
    simp only [List.map_cons, runTok, step]
    rw [ih (fun u hu => h u (List.mem_cons_of_mem t hu))]

/-- C3: N concurrent `fetchPoToken` calls arriving while no valid cache
exists, none in flight and no backoff pending, start exactly one generation
(the generation counter advances by exactly one) and every one of the N
calls receives the same in-flight handle `s.nextGen`; any subsequent settle
event settles exactly that handle with a single value, so all N calls
resolve to the same value. -/
theorem claim3_single_flight (s : TokState) (t0 : Nat) (ts : List Nat)
    (hin : s.inFlight = none)
    (hcv0 : isCacheValid t0 s = false)
    (hcvs : ∀ t ∈ ts, isCacheValid t s = false)
    (hbk : ¬(s.lastFailedAt ≠ 0 ∧ t0 - s.lastFailedAt < FAILURE_BACKOFF_MS)) :
    runTok s ((t0 :: ts).map .call) =
      ({ s with inFlight := some s.nextGen, nextGen := s.nextGen + 1 },
        (t0 :: ts).map (fun _ => .fromCall (.joined s.nextGen))) ∧
    (∀ (now : Nat) (out : GenOutcome),
      (stepTok (runTok s ((t0 :: ts).map .call)).1 (.genDone now out)).2 =
        .settled (some s.nextGen)
          ((stepGenDone (runTok s ((t0 :: ts).map .call)).1 now out).2)) := by
  have step0 : stepTok s (.call t0) =
      ({ s with inFlight := some s.nextGen, nextGen := s.nextGen + 1 },
        .fromCall (.joined s.nextGen)) := by
    simp [stepTok, stepCall, hcv0, hin, hbk]
  have hrest := runTok_calls_join_inflight
    { s with inFlight := some s.nextGen, nextGen := s.nextGen + 1 } s.nextGen rfl ts
    (fun t ht => hcvs t ht)
  have hmain : runTok s ((t0 :: ts).map .call) =
      ({ s with inFlight := some s.nextGen, nextGen := s.nextGen + 1 },
        (t0 :: ts).map (fun _ => .fromCall (.joined s.nextGen))) := by
    simp only [List.map_cons, runTok, step0]
    rw [hrest]
  refine ⟨hmain, ?_⟩
  intro now out
  rw [hmain]
  simp [stepTok]

/-- C3 witness: three concurrent calls on a fresh process yield one started
generation (counter 0 → 1) and all three join generation 0. -/
theorem claim3_witness :
    runTok tokInit [.call 5, .call 5, .call 6] =
      (⟨none, 0, some 0, 1⟩,
        [.fromCall (.joined 0), .fromCall (.joined 0), .fromCall (.joined 0)]) :=
  (claim3_single_flight tokInit 5 [5, 6] rfl (by decide) (by decide) (by decide)).1

/-! ### C1 — redirect chain validation -/

lemma redirectLoop_requests_validated (cfg : Config) (net : String → HttpResp) :
    ∀ (fuel : Nat) (u : String), isAllowedDownloadUrl cfg u = true →
      ∀ v ∈ (redirectLoop cfg net u fuel).2, isAllowedDownloadUrl cfg v = true := by
  intro fuel
  induction fuel with
  | zero =>
    intro u hu v hv
    simp [redirectLoop] at hv
  | succ n ih =>
    intro u hu v hv
    rw [redirectLoop] at hv
    cases hr : (net u).isRedirect with
    | false =>
      rw [hr] at hv
      by_cases hok : (net u).ok = true
      · simp [hok] at hv
        rw [hv]; exact hu
      · simp [Bool.not_eq_true] at hok
        simp [hok] at hv
        rw [hv]; exact hu
    | true =>
      rw [hr] at hv
      cases hl : (net u).location with
      | none =>
        simp [hl] at hv
        rw [hv]; exact hu
      | some loc =>
        cases ha : isAllowedDownloadUrl cfg (resolveUrl loc u) with
        | false =>
          simp [hl, ha] at hv
          rw [hv]; exact hu
        | true =>
          simp [hl, ha] at hv
          rcases hv with hv | hv
          · rw [hv]; exact hu
          · exact ih (resolveUrl loc u) ha v hv

lemma redirectLoop_all_redirecting (cfg : Config) (net : String → HttpResp)
    (hnet : ∀ u, isAllowedDownloadUrl cfg u = true →
      (net u).isRedirect = true ∧
      ∃ loc, (net u).location = some loc ∧
        isAllowedDownloadUrl cfg (resolveUrl loc u) = true) :
    ∀ (fuel : Nat) (u : String), isAllowedDownloadUrl cfg u = true →
      (redirectLoop cfg net u fuel).1 = .error .tooManyRedirects := by
  intro fuel
  induction fuel with
  | zero => intro u hu; rfl
  | succ n ih =>
    intro u hu
    obtain ⟨hr, loc, hl, ha⟩ := hnet u hu
    rw [redirectLoop, hr, hl]
    simp only [if_true]
    rw [ha]
    simpa using ih (resolveUrl loc u) ha

lemma redirectLoop_length_le (cfg : Config) (net : String → HttpResp) :
    ∀ (fuel : Nat) (u : String), (redirectLoop cfg net u fuel).2.length ≤ fuel := by
  intro fuel
  induction fuel with
  | zero => intro u; simp [redirectLoop]
  | succ n ih =>
    intro u
    rw [redirectLoop]
    cases hr : (net u).isRedirect with
    | false =>
      by_cases hok : (net u).ok = true
      · simp [hok]
      · simp [Bool.not_eq_true] at hok
        simp [hok]
    | true =>
      cases hl : (net u).location with
      | none => simp
      | some loc =>
        cases ha : isAllowedDownloadUrl cfg (resolveUrl loc u) with
        | false => simp [ha]
        | true =>
          simp only [ha, if_true, List.length_cons]
          exact Nat.succ_le_succ (ih (resolveUrl loc u))

/-- C1: every URL the download loop actually requests passed
`isAllowedDownloadUrl` first (each 3xx `Location` is resolved against the
current URL and re-validated before any request to it); a hop whose resolved
target fails validation makes the fetch throw the disallowed-redirect error
with no request to that target; a 3xx without a `Location` header throws the
malformed-redirect error; a chain that keeps redirecting past the
`MAX_REDIRECTS` = 5 bound throws the too-many-redirects error; and at most
`MAX_REDIRECTS` requests are ever issued. -/
theorem claim1_redirect_chain_validation (cfg : Config) (net : String → HttpResp)
    (url : String) :
    (∀ v ∈ (fetchCobaltAudio cfg net url).2, isAllowedDownloadUrl cfg v = true) ∧
    (∀ (fuel : Nat) (u loc : String),
      isAllowedDownloadUrl cfg u = true → (net u).isRedirect = true →
      (net u).location = some loc →
      isAllowedDownloadUrl cfg (resolveUrl loc u) = false →
      redirectLoop cfg net u (fuel + 1) = (.error .disallowedRedirect, [u])) ∧
    (∀ (fuel : Nat) (u : String),
      isAllowedDownloadUrl cfg u = true → (net u).isRedirect = true →
      (net u).location = none →
      redirectLoop cfg net u (fuel + 1) = (.error .noLocation, [u])) ∧
    ((∀ u, isAllowedDownloadUrl cfg u = true →
        (net u).isRedirect = true ∧
        ∃ loc, (net u).location = some loc ∧
          isAllowedDownloadUrl cfg (resolveUrl loc u) = true) →
      isAllowedDownloadUrl cfg url = true →
      (fetchCobaltAudio cfg net url).1 = .error .tooManyRedirects) ∧
    (fetchCobaltAudio cfg net url).2.length ≤ MAX_REDIRECTS := by
  refine ⟨?_, ?_, ?_, ?_, ?_⟩
  · intro v hv
    unfold fetchCobaltAudio at hv
    cases hu : isAllowedDownloadUrl cfg url with
    | false =>
      rw [hu] at hv
      cases hp : parseUrl url <;> simp [hp] at hv
    | true =>
      rw [hu] at hv
      simp only [if_true] at hv
      exact redirectLoop_requests_validated cfg net MAX_REDIRECTS url hu v hv
  · intro fuel u loc hu hr hl ha
    rw [redirectLoop, hr, hl]
    simp [ha]
  · intro fuel u hu hr hl
    rw [redirectLoop, hr, hl]
    simp
  · intro hnet hu
    unfold fetchCobaltAudio
    rw [hu]
    simp only [if_true]
    exact redirectLoop_all_redirecting cfg net hnet MAX_REDIRECTS url hu
  · unfold fetchCobaltAudio
    cases hu : isAllowedDownloadUrl cfg url with
    | false =>
      cases hp : parseUrl url <;> simp [hp, MAX_REDIRECTS]
    | true =>
      simp only [if_true]
      exact redirectLoop_length_le cfg net MAX_REDIRECTS url

/-- C1 witness: a first hop redirecting to `localhost` is blocked with no
second request, and a network that always redirects inside the allow-list
exhausts the 5-hop bound. -/
theorem claim1_witness :
    redirectLoop {} (fun _ => ⟨302, some "https://localhost:3000/internal", 0⟩)
      "https://download.cobalt.tools/audio.mp3" 5 =
      (.error .disallowedRedirect, ["https://download.cobalt.tools/audio.mp3"]) ∧
    (fetchCobaltAudio {} (fun _ => ⟨302, some "https://cdn.cobalt.tools/a", 0⟩)
      "https://download.cobalt.tools/audio.mp3").1 = .error .tooManyRedirects := by
  constructor
  · exact (claim1_redirect_chain_validation {}
      (fun _ => ⟨302, some "https://localhost:3000/internal", 0⟩)
      "https://download.cobalt.tools/audio.mp3").2.1 4
      "https://download.cobalt.tools/audio.mp3" "https://localhost:3000/internal"
      (by decide) rfl rfl (by decide)
  · exact (claim1_redirect_chain_validation {}
      (fun _ => ⟨302, some "https://cdn.cobalt.tools/a", 0⟩)
      "https://download.cobalt.tools/audio.mp3").2.2.2.1
      (fun u _ => ⟨rfl, "https://cdn.cobalt.tools/a", rfl, by
        rw [show resolveUrl "https://cdn.cobalt.tools/a" u =
          "https://cdn.cobalt.tools/a" from rfl]
        decide⟩) (by decide)

/-! ### C2 — validator acceptance and rejection handling -/

/-- C2 counterexample: `"not a url"` is rejected by the validator, but
`fetchCobaltAudio` then throws the `TypeError` escaping from
`new URL(downloadUrl).hostname` in the telemetry extras (evaluated before
`throw error`), not the invalid-target `CobaltError` — still with no request
issued. -/
theorem claim2_counterexample :
    isAllowedDownloadUrl {} "not a url" = false ∧
    (fetchCobaltAudio {} (fun _ => ⟨200, none, 1⟩) "not a url").1 = .error .urlParse ∧
    FetchErr.urlParse ≠ FetchErr.invalidDownloadUrl ∧
    (fetchCobaltAudio {} (fun _ => ⟨200, none, 1⟩) "not a url").2 = [] := by
  refine ⟨by decide, rfl, by decide, rfl⟩

/-- C2 (amended): the validator accepts only HTTPS URLs (plain HTTP only for
an explicitly private Cobalt deployment) whose hostname matches an allowed
host exactly or on a `.`-separated suffix boundary; the cloud-metadata URL
`http://169.254.169.254/latest/meta-data/` is rejected and produces no
request; `cdn.example.com` matches allowed host `example.com` while
`evilexample.com` does not; and for every URL the validator rejects,
`fetchCobaltAudio` throws before issuing any request — the invalid-target
`CobaltError` when the URL parses, and the telemetry URL-parse `TypeError`
when it does not. -/
theorem claim2_validator_acceptance (cfg : Config) (net : String → HttpResp)
    (url : String) :
    (isAllowedDownloadUrl cfg url = true →
      ∃ parsed, parseUrl url = some parsed ∧
        (parsed.protocol = "https:" ∨
          (isPrivateCobaltInstance cfg = true ∧ parsed.protocol = "http:")) ∧
        ∃ host ∈ getAllowedDownloadHosts cfg,
          (parsed.hostname = host ∨ jsEndsWith parsed.hostname ("." ++ host) = true)) ∧
    (isAllowedDownloadUrl cfg url = false → parseUrl url ≠ none →
      fetchCobaltAudio cfg net url = (.error .invalidDownloadUrl, [])) ∧
    (isAllowedDownloadUrl cfg url = false → parseUrl url = none →
      fetchCobaltAudio cfg net url = (.error .urlParse, [])) ∧
    isAllowedDownloadUrl {} "http://169.254.169.254/latest/meta-data/" = false ∧
    fetchCobaltAudio {} net "http://169.254.169.254/latest/meta-data/" =
      (.error .invalidDownloadUrl, []) ∧
    isAllowedDownloadUrl ⟨"https://example.com/", "", ""⟩ "https://cdn.example.com/x" = true ∧
    isAllowedDownloadUrl ⟨"https://example.com/", "", ""⟩ "https://evilexample.com/x" = false := by
  refine ⟨?_, ?_, ?_, by decide, ?_, by decide, by decide⟩
  · intro hv
    unfold isAllowedDownloadUrl at hv
    cases hp : parseUrl url with
    | none => rw [hp] at hv; exact absurd hv (by simp)
    | some parsed =>
      rw [hp] at hv
      simp only [ne_eq, Bool.if_false_left, Bool.and_eq_true] at hv
      refine ⟨parsed, rfl, ?_, ?_⟩
      · by_cases hprot : parsed.protocol = "https:"
        · exact Or.inl hprot
        · right
          by_cases hpriv : isPrivateCobaltInstance cfg = true
          · refine ⟨hpriv, ?_⟩
            by_cases hprot2 : parsed.protocol = "http:"
            · exact hprot2
            · exfalso
              have h2 := hv.2.1
              simp [hpriv, hprot, hprot2] at h2
          · exfalso
            have hpriv2 : isPrivateCobaltInstance cfg = false :=
              Bool.not_eq_true _ ▸ (by simpa using hpriv)
            have h1 := hv.1
            simp [hpriv2, hprot] at h1
      · have hm := hv.2.2
        cases hapi : parseUrl (getCobaltApiUrl cfg) with
        | none =>
          rw [hapi] at hm
          exact absurd hm (by simp)
        | some cobaltParsed =>
          rw [hapi] at hm
          have hany : (getAllowedDownloadHosts cfg).any
              (fun host =>
                if (parsed.hostname == host) = true then true
                else if (host == cobaltParsed.hostname) = true ∧
                    isPrivateHostname host = true then
                  parsed.hostname == host
                else jsEndsWith parsed.hostname ("." ++ host)) = true := hm
          obtain ⟨host, hmem, hpred⟩ := List.any_eq_true.mp hany
          refine ⟨host, hmem, ?_⟩
          by_cases heq : parsed.hostname = host
          · exact Or.inl heq
          · have hbeq : (parsed.hostname == host) = false := by
              simp [heq]
            rw [if_neg (by simp [heq])] at hpred
            by_cases hmid : (host == cobaltParsed.hostname) = true ∧
                isPrivateHostname host = true
            · rw [if_pos hmid] at hpred
              rw [hbeq] at hpred
              cases hpred
            · rw [if_neg hmid] at hpred
              exact Or.inr hpred
  · intro hv hp
    unfold fetchCobaltAudio
    rw [hv]
    cases hp2 : parseUrl url with
    | none => exact absurd hp2 hp
    | some parsed => simp
  · intro hv hp
    unfold fetchCobaltAudio
    rw [hv, hp]
    simp
  · unfold fetchCobaltAudio
    rw [show isAllowedDownloadUrl {} "http://169.254.169.254/latest/meta-data/" =
      false from by decide]
    simp [show parseUrl "http://169.254.169.254/latest/meta-data/" =
      some ⟨"http:", "169.254.169.254"⟩ from by decide]

/-- C2 witness: the invalid-target branch applied at a parseable URL outside
the allow-list. -/
theorem claim2_witness :
    fetchCobaltAudio {} (fun _ => ⟨200, none, 1⟩) "https://evil.example/x" =
      (.error .invalidDownloadUrl, []) :=
  (claim2_validator_acceptance {} (fun _ => ⟨200, none, 1⟩)
    "https://evil.example/x").2.1 (by decide) (by decide)

/-! ### C5 / C6 — event-stream shape and fallback decision -/

/-- Terminal events of the SSE protocol: `complete` and `error`. -/
def SseEvent.isTerminal : SseEvent → Bool
  | .error _ => true
  | .complete _ _ _ => true
  | _ => false

def TraceItem.isTerminalEv : TraceItem → Bool
  | .ev e => e.isTerminal
  | .close => false

/-- Number of terminal events in a trace. -/
def terminalCount (l : List TraceItem) : Nat :=
  (l.filter TraceItem.isTerminalEv).length

/-- Does the primary-provider attempt count as failed (any thrown error, or
a zero-length payload)? -/
def CobaltOutcome.failed : CobaltOutcome → Bool
  | .requestFailed _ => true
  | .fetchFailed _ _ => true
  | .fetched _ len => len == 0

def YtTermination.isProcError : YtTermination → Bool
  | .procError _ => true
  | .closed _ => false

def MetaOutcome.isUnavail : MetaOutcome → Bool
  | .unavailableErr => true
  | _ => false

/-- How many terminal events the run of one request emits: one, except when the
primary attempt fails and the fallback process then raises a process-level
error, where the error event is emitted twice. -/
def controllerK (env : ControllerEnv) : Nat :=
  if env.meta.isUnavail then 1
  else if env.cobalt.failed && env.ytEnd.isProcError then 2 else 1

lemma send_open (out : List TraceItem) (e : SseEvent) :
    send ⟨false, out⟩ e = ⟨false, out ++ [.ev e]⟩ := by
  simp [send]

lemma closeStream_open (out : List TraceItem) :
    closeStream ⟨false, out⟩ = ⟨true, out ++ [.close]⟩ := by
  simp [closeStream]

lemma terminalCount_append (l m : List TraceItem) :
    terminalCount (l ++ m) = terminalCount l + terminalCount m := by
  simp [terminalCount, List.filter_append]

lemma getLast?_append_singleton {α : Type} (l : List α) (a : α) :
    (l ++ [a]).getLast? = some a := by
  simp

lemma sendCobaltProgress_shape (hp : Helpers) :
    ∀ (ps : List CobaltProg) (out : List TraceItem),
      ∃ items : List SseEvent,
        sendCobaltProgress hp ⟨false, out⟩ ps =
          ⟨false, out ++ items.map TraceItem.ev⟩ ∧
        ∀ e ∈ items, e.isTerminal = false
  | [], out => ⟨[], by simp [sendCobaltProgress], by simp⟩
  | p :: rest, out => by
    by_cases hb : p.totalBytes.getD 0 ≠ 0
    · obtain ⟨items, heq, hnt⟩ := sendCobaltProgress_shape hp rest
        (out ++ [.ev (.progress (5 + (p.percent * 70 + 50) / 100))])
      refine ⟨.progress (5 + (p.percent * 70 + 50) / 100) :: items, ?_, ?_⟩
      · rw [sendCobaltProgress, if_pos hb]
        simp only [send_open]
        rw [heq]
        simp
      · intro e he
        rcases List.mem_cons.mp he with h | h
        · rw [h]; rfl
        · exact hnt e h
    · obtain ⟨items, heq, hnt⟩ := sendCobaltProgress_shape hp rest
        (out ++ [.ev (.progress (5 + min 70 (10 * Nat.log 10 (1 + p.bytesReceived))))] ++
          [.ev (.status ("Downloading... (" ++ hp.formatBytes p.bytesReceived ++ ")"))])
      refine ⟨.progress (5 + min 70 (10 * Nat.log 10 (1 + p.bytesReceived))) ::
        .status ("Downloading... (" ++ hp.formatBytes p.bytesReceived ++ ")") :: items,
        ?_, ?_⟩
      · rw [sendCobaltProgress, if_neg hb]
        simp only [send_open]
        rw [heq]
        simp
      · intro e he
        rcases List.mem_cons.mp he with h | h
        · rw [h]; rfl
        · rcases List.mem_cons.mp h with h2 | h2
          · rw [h2]; rfl
          · exact hnt e h2

lemma stepYtEv_shape (hp : Helpers)
    (enrichF : String → String → String → EnrichmentResult)
    (videoId uploader : String) (st : YtFoldState) (out : List TraceItem)
    (hst : st.stream = ⟨false, out⟩) (e : YtEv) :
    ∃ items : List SseEvent,
      (stepYtEv hp enrichF videoId uploader st e).stream =
        ⟨false, out ++ items.map TraceItem.ev⟩ ∧
      ∀ x ∈ items, x.isTerminal = false := by
  cases e with
  | progress p =>
    refine ⟨[.progressSpd (5 + ((min 100 p.percent) * 70 + 50) / 100) p.speed p.eta],
      ?_, ?_⟩
    · simp only [stepYtEv, hst, send_open]
      simp
    · intro x hx
      rcases List.mem_cons.mp hx with h | h
      · rw [h]; rfl
      · cases h
  | stderrData text =>
    by_cases h : jsIncludes text "ERROR:" = true
    · refine ⟨[], ?_, by simp⟩
      simp only [stepYtEv, h, if_true, hst]
      simp
    · refine ⟨[], ?_, by simp⟩
      simp only [stepYtEv]
      rw [if_neg h, hst]
      simp
  | ytDlpEvent eventType eventData =>
    by_cases hvt : st.videoTitle == ""
    · simp only [stepYtEv, hvt, if_true]
      cases hnt : (if eventType = "Destination" then
          (hp.destinationMatch eventData).map underscoresToSpaces
        else if jsIncludes eventData ".mp3" || jsIncludes eventData ".webm" then
          (hp.fileLikeMatch eventData).map underscoresToSpaces
        else none) with
      | none =>
        refine ⟨[.eventPass eventType eventData], ?_, ?_⟩
        · simp only [hst, send_open]
          simp
        · intro x hx
          rcases List.mem_cons.mp hx with h | h
          · rw [h]; rfl
          · cases h
      | some t =>
        refine ⟨[.info t
            (if (hp.parseArtistAndTitle t).1 == "" && !(uploader == "") then
              hp.sanitizeUploaderAsArtist uploader
            else (hp.parseArtistAndTitle t).1) (hp.parseArtistAndTitle t).2,
          .eventPass eventType eventData], ?_, ?_⟩
        · simp only [hst, send_open]
          simp
        · intro x hx
          rcases List.mem_cons.mp hx with h | h
          · rw [h]; rfl
          · rcases List.mem_cons.mp h with h2 | h2
            · rw [h2]; rfl
            · cases h2
    · simp only [stepYtEv]
      rw [if_neg hvt]
      refine ⟨[.eventPass eventType eventData], ?_, ?_⟩
      · simp only [hst, send_open]
        simp
      · intro x hx
        rcases List.mem_cons.mp hx with h | h
        · rw [h]; rfl
        · cases h

lemma foldYt_shape (hp : Helpers)
    (enrichF : String → String → String → EnrichmentResult)
    (videoId uploader : String) :
    ∀ (evs : List YtEv) (st : YtFoldState) (out : List TraceItem),
      st.stream = ⟨false, out⟩ →
      ∃ items : List SseEvent,
        (List.foldl (stepYtEv hp enrichF videoId uploader) st evs).stream =
          ⟨false, out ++ items.map TraceItem.ev⟩ ∧
        ∀ x ∈ items, x.isTerminal = false
  | [], st, out, hst => ⟨[], by simpa using hst, by simp⟩
  | e :: evs, st, out, hst => by
    obtain ⟨items1, heq1, hnt1⟩ := stepYtEv_shape hp enrichF videoId uploader st out hst e
    obtain ⟨items2, heq2, hnt2⟩ := foldYt_shape hp enrichF videoId uploader evs
      (stepYtEv hp enrichF videoId uploader st e) (out ++ items1.map TraceItem.ev) heq1
    refine ⟨items1 ++ items2, ?_, ?_⟩
    · rw [List.foldl_cons, heq2]
      simp
    · intro x hx
      rcases List.mem_append.mp hx with h | h
      · exact hnt1 x h
      · exact hnt2 x h

lemma contFinish_props (env : ControllerEnv) (out : List TraceItem)
    (vt ar tt : String) (enr : EnrichmentResult) (cf : Bool) (m : String) :
    (∃ (evs : List SseEvent) (e : SseEvent),
      (contFinish env ⟨false, out⟩ vt ar tt enr cf m).stream.out =
        out ++ evs.map TraceItem.ev ++ [TraceItem.close] ∧
      evs.getLast? = some e ∧ e.isTerminal = true ∧
      (evs.filter SseEvent.isTerminal).length = 1) ∧
    (contFinish env ⟨false, out⟩ vt ar tt enr cf m).cobaltFailed = cf ∧
    (contFinish env ⟨false, out⟩ vt ar tt enr cf m).downloadMethod = m := by
  unfold contFinish
  cases hf : env.fileExists with
  | false =>
    simp only [hf, Bool.not_false, if_true, send_open, rawClose]
    exact ⟨⟨[.error "Download completed but file not found"],
      .error "Download completed but file not found", by simp,
      by simp [SseEvent.isTerminal], by simp [SseEvent.isTerminal],
      by simp [SseEvent.isTerminal]⟩, by simp, by simp⟩
  | true =>
    simp only [hf, Bool.not_true, Bool.false_eq_true, if_false]
    cases hmet : enr.metadata with
    | some mm =>
      simp only [send_open, closeStream_open]
      exact ⟨⟨[.progress 78, .status "Processing metadata...",
        .metadataEv mm.album mm.year mm.genre mm.trackNumber mm.label enr.hasArtwork,
        .progress 85, .status "Preparing download...", .progress 88, .progress 95,
        .complete (computeFilename vt ar tt) env.fileSize m],
        .complete (computeFilename vt ar tt) env.fileSize m,
        by simp, by simp [SseEvent.isTerminal], by simp [SseEvent.isTerminal],
        by simp [SseEvent.isTerminal]⟩, by simp, by simp⟩
    | none =>
      simp only [send_open, closeStream_open]
      exact ⟨⟨[.progress 78, .status "Processing metadata...",
        .progress 85, .status "Preparing download...", .progress 88, .progress 95,
        .complete (computeFilename vt ar tt) env.fileSize m],
        .complete (computeFilename vt ar tt) env.fileSize m,
        by simp, by simp [SseEvent.isTerminal], by simp [SseEvent.isTerminal],
        by simp [SseEvent.isTerminal]⟩, by simp, by simp⟩

lemma filter_terminal_nil {items : List SseEvent}
    (hnt : ∀ x ∈ items, x.isTerminal = false) :
    items.filter SseEvent.isTerminal = [] := by
  rw [List.filter_eq_nil_iff]
  intro a ha
  simp [hnt a ha]

lemma contFallback_props (hp : Helpers) (env : ControllerEnv) (videoId : String)
    (out : List TraceItem) (vt ar tt up : String) (enr : EnrichmentResult) :
    (∃ (evs : List SseEvent) (e : SseEvent) (rest : List SseEvent),
      (contFallback hp env videoId ⟨false, out⟩ vt ar tt up enr).stream.out =
        out ++ evs.map TraceItem.ev ++ [TraceItem.close] ∧
      evs = .status "Starting download..." :: rest ∧
      evs.getLast? = some e ∧ e.isTerminal = true ∧
      (evs.filter SseEvent.isTerminal).length =
        (if env.ytEnd.isProcError then 2 else 1)) ∧
    (contFallback hp env videoId ⟨false, out⟩ vt ar tt up enr).cobaltFailed = true := by
  unfold contFallback
  simp only [send_open]
  set st := List.foldl (stepYtEv hp env.enrich videoId up)
    ⟨⟨false, out ++ [.ev (.status "Starting download...")]⟩, vt, ar, tt, enr, ""⟩
    env.ytEvents with hst
  obtain ⟨items, hitems, hnt⟩ := foldYt_shape hp env.enrich videoId up env.ytEvents
    ⟨⟨false, out ++ [.ev (.status "Starting download...")]⟩, vt, ar, tt, enr, ""⟩
    (out ++ [.ev (.status "Starting download...")]) rfl
  rw [← hst] at hitems
  cases hend : env.ytEnd with
  | procError msg =>
    simp only [hitems, send_open, closeStream_open]
    refine ⟨⟨.status "Starting download..." ::
        (items ++ [.error (parseYtDlpError msg), .error (parseYtDlpError msg)]),
      .error (parseYtDlpError msg),
      items ++ [.error (parseYtDlpError msg), .error (parseYtDlpError msg)],
      by simp, rfl, ?_, by simp [SseEvent.isTerminal], ?_⟩, by simp⟩
    · rw [show SseEvent.status "Starting download..." ::
          (items ++ [.error (parseYtDlpError msg), .error (parseYtDlpError msg)]) =
          (SseEvent.status "Starting download..." ::
            (items ++ [.error (parseYtDlpError msg)])) ++ [.error (parseYtDlpError msg)]
          from by simp]
      exact getLast?_append_singleton _ _
    · simp [YtTermination.isProcError, List.filter_append, filter_terminal_nil hnt,
        SseEvent.isTerminal]
  | closed code =>
    dsimp only
    by_cases hc : code ≠ 0
    · rw [if_pos hc]
      simp only [hitems, send_open, closeStream_open]
      refine ⟨⟨.status "Starting download..." ::
          (items ++ [.error (parseYtDlpError
            (if st.errorMessage == "" then "Process exited with code " ++ toString code
             else st.errorMessage))]),
        .error (parseYtDlpError
          (if st.errorMessage == "" then "Process exited with code " ++ toString code
           else st.errorMessage)),
        items ++ [.error (parseYtDlpError
          (if st.errorMessage == "" then "Process exited with code " ++ toString code
           else st.errorMessage))],
        by simp, rfl, ?_, by simp [SseEvent.isTerminal], ?_⟩, by simp⟩
      · rw [show SseEvent.status "Starting download..." ::
            (items ++ [SseEvent.error (parseYtDlpError
              (if st.errorMessage == "" then "Process exited with code " ++ toString code
               else st.errorMessage))]) =
            (SseEvent.status "Starting download..." :: items) ++
              [SseEvent.error (parseYtDlpError
                (if st.errorMessage == "" then "Process exited with code " ++ toString code
                 else st.errorMessage))] from by simp]
        exact getLast?_append_singleton _ _
      · simp [YtTermination.isProcError, List.filter_append, filter_terminal_nil hnt,
          SseEvent.isTerminal]
    · rw [if_neg hc]
      rw [hitems]
      obtain ⟨⟨evs2, e2, hout2, hlast2, hterm2, hcount2⟩, hcf2, _⟩ :=
        contFinish_props env (out ++ [.ev (.status "Starting download...")] ++
          items.map TraceItem.ev) st.videoTitle st.artist st.trackTitle st.enrichment
          true "yt-dlp"
    -- the contFinish result: splice its events behind the status and fold items
      have hne2 : evs2 ≠ [] := by
        intro h
        rw [h] at hlast2
        cases hlast2
      refine ⟨⟨.status "Starting download..." :: (items ++ evs2), e2,
        items ++ evs2, ?_, rfl, ?_, hterm2, ?_⟩, hcf2⟩
      · rw [hout2]
        simp
      · rw [show SseEvent.status "Starting download..." :: (items ++ evs2) =
            (SseEvent.status "Starting download..." :: items) ++ evs2 from by simp]
        rw [List.getLast?_append_of_ne_nil _ hne2]
        exact hlast2
      · simp only [YtTermination.isProcError, if_false]
        rw [show SseEvent.status "Starting download..." :: (items ++ evs2) =
            (SseEvent.status "Starting download..." :: items) ++ evs2 from by simp]
        rw [List.filter_append]
        simp [filter_terminal_nil hnt, SseEvent.isTerminal, hcount2]

lemma contAfterMeta_props (hp : Helpers) (env : ControllerEnv) (videoId : String)
    (out : List TraceItem) (vt ar tt up : String) :
    (∃ (evs : List SseEvent) (e : SseEvent),
      (contAfterMeta hp env videoId ⟨false, out⟩ vt ar tt up).stream.out =
        out ++ evs.map TraceItem.ev ++ [TraceItem.close] ∧
      evs.getLast? = some e ∧ e.isTerminal = true ∧
      (evs.filter SseEvent.isTerminal).length =
        (if env.cobalt.failed && env.ytEnd.isProcError then 2 else 1)) ∧
    (contAfterMeta hp env videoId ⟨false, out⟩ vt ar tt up).cobaltFailed =
      env.cobalt.failed ∧
    (env.cobalt.failed = true →
      TraceItem.ev (.status "Starting download...") ∈
        (contAfterMeta hp env videoId ⟨false, out⟩ vt ar tt up).stream.out) ∧
    (env.cobalt.failed = false →
      (contAfterMeta hp env videoId ⟨false, out⟩ vt ar tt up).downloadMethod =
        "cobalt") := by
  unfold contAfterMeta
  cases hco : env.cobalt with
  | requestFailed msg =>
    dsimp only
    simp only [send_open]
    obtain ⟨⟨evsF, eF, restF, houtF, hevsF, hlastF, htermF, hcountF⟩, hcfF⟩ :=
      contFallback_props hp env videoId
        (out ++ [.ev (.status "Trying fast download...")]) vt ar tt up
        (if !(ar == "") && !(tt == "") then env.enrich ar tt videoId
         else env.enrich "" "" videoId)
    have hneF : evsF ≠ [] := by rw [hevsF]; simp
    refine ⟨⟨.status "Trying fast download..." :: evsF, eF, ?_, ?_, htermF, ?_⟩,
      ?_, ?_, ?_⟩
    · rw [houtF]; simp
    · rw [show SseEvent.status "Trying fast download..." :: evsF =
          [SseEvent.status "Trying fast download..."] ++ evsF from rfl]
      rw [List.getLast?_append_of_ne_nil _ hneF]
      exact hlastF
    · simp only [CobaltOutcome.failed, Bool.true_and]
      simpa [SseEvent.isTerminal] using hcountF
    · simpa [CobaltOutcome.failed] using hcfF
    · intro _
      rw [houtF, hevsF]
      simp
    · intro h
      simp [CobaltOutcome.failed] at h
  | fetchFailed prog msg =>
    dsimp only
    simp only [send_open]
    obtain ⟨itemsP, hitemsP, hntP⟩ := sendCobaltProgress_shape hp prog
      (out ++ [.ev (.status "Trying fast download...")] ++ [.ev (.progress 5)])
    rw [hitemsP]
    obtain ⟨⟨evsF, eF, restF, houtF, hevsF, hlastF, htermF, hcountF⟩, hcfF⟩ :=
      contFallback_props hp env videoId
        (out ++ [.ev (.status "Trying fast download...")] ++ [.ev (.progress 5)] ++
          itemsP.map TraceItem.ev) vt ar tt up
        (if !(ar == "") && !(tt == "") then env.enrich ar tt videoId
         else env.enrich "" "" videoId)
    have hneF : evsF ≠ [] := by rw [hevsF]; simp
    refine ⟨⟨.status "Trying fast download..." :: .progress 5 :: (itemsP ++ evsF), eF,
      ?_, ?_, htermF, ?_⟩, ?_, ?_, ?_⟩
    · rw [houtF]; simp
    · rw [show SseEvent.status "Trying fast download..." :: .progress 5 ::
          (itemsP ++ evsF) =
          (SseEvent.status "Trying fast download..." :: .progress 5 :: itemsP) ++ evsF
          from by simp]
      rw [List.getLast?_append_of_ne_nil _ hneF]
      exact hlastF
    · simp only [CobaltOutcome.failed, Bool.true_and]
      rw [show SseEvent.status "Trying fast download..." :: .progress 5 ::
          (itemsP ++ evsF) =
          (SseEvent.status "Trying fast download..." :: .progress 5 :: itemsP) ++ evsF
          from by simp]
      rw [List.filter_append]
      simp only [List.length_append]
      rw [show (SseEvent.status "Trying fast download..." :: .progress 5 :: itemsP).filter
          SseEvent.isTerminal = itemsP.filter SseEvent.isTerminal from by
        simp [SseEvent.isTerminal]]
      rw [filter_terminal_nil hntP]
      simpa [SseEvent.isTerminal] using hcountF
    · simpa [CobaltOutcome.failed] using hcfF
    · intro _
      rw [houtF, hevsF]
      simp
    · intro h
      simp [CobaltOutcome.failed] at h
  | fetched prog len =>
    dsimp only
    simp only [send_open]
    obtain ⟨itemsP, hitemsP, hntP⟩ := sendCobaltProgress_shape hp prog
      (out ++ [.ev (.status "Trying fast download...")] ++ [.ev (.progress 5)])
    rw [hitemsP]
    by_cases hlen : len = 0
    · rw [if_pos hlen]
      obtain ⟨⟨evsF, eF, restF, houtF, hevsF, hlastF, htermF, hcountF⟩, hcfF⟩ :=
        contFallback_props hp env videoId
          (out ++ [.ev (.status "Trying fast download...")] ++ [.ev (.progress 5)] ++
            itemsP.map TraceItem.ev) vt ar tt up
          (if !(ar == "") && !(tt == "") then env.enrich ar tt videoId
           else env.enrich "" "" videoId)
      have hneF : evsF ≠ [] := by rw [hevsF]; simp
      refine ⟨⟨.status "Trying fast download..." :: .progress 5 :: (itemsP ++ evsF), eF,
        ?_, ?_, htermF, ?_⟩, ?_, ?_, ?_⟩
      · rw [houtF]; simp
      · rw [show SseEvent.status "Trying fast download..." :: .progress 5 ::
            (itemsP ++ evsF) =
            (SseEvent.status "Trying fast download..." :: .progress 5 :: itemsP) ++ evsF
            from by simp]
        rw [List.getLast?_append_of_ne_nil _ hneF]
        exact hlastF
      · simp only [CobaltOutcome.failed, hlen, Bool.true_and]
        rw [show SseEvent.status "Trying fast download..." :: .progress 5 ::
            (itemsP ++ evsF) =
            (SseEvent.status "Trying fast download..." :: .progress 5 :: itemsP) ++ evsF
            from by simp]
        rw [List.filter_append]
        simp only [List.length_append]
        rw [show (SseEvent.status "Trying fast download..." :: .progress 5 ::
            itemsP).filter SseEvent.isTerminal = itemsP.filter SseEvent.isTerminal from by
          simp [SseEvent.isTerminal]]
        rw [filter_terminal_nil hntP]
        simpa [SseEvent.isTerminal] using hcountF
      · simpa [CobaltOutcome.failed, hlen] using hcfF
      · intro _
        rw [houtF, hevsF]
        simp
      · intro h
        simp [CobaltOutcome.failed, hlen] at h
    · rw [if_neg hlen]
      simp only [send_open]
      obtain ⟨⟨evsC, eC, houtC, hlastC, htermC, hcountC⟩, hcfC, hdmC⟩ :=
        contFinish_props env
          (out ++ [.ev (.status "Trying fast download...")] ++ [.ev (.progress 5)] ++
            itemsP.map TraceItem.ev ++ [.ev (.progress 75)]) vt ar tt
          (if !(ar == "") && !(tt == "") then env.enrich ar tt videoId
           else env.enrich "" "" videoId) false "cobalt"
      have hneC : evsC ≠ [] := by
        intro h
        rw [h] at hlastC
        cases hlastC
      refine ⟨⟨.status "Trying fast download..." :: .progress 5 ::
        (itemsP ++ .progress 75 :: evsC), eC, ?_, ?_, htermC, ?_⟩, ?_, ?_, ?_⟩
      · rw [houtC]; simp
      · rw [show SseEvent.status "Trying fast download..." :: .progress 5 ::
            (itemsP ++ .progress 75 :: evsC) =
            (SseEvent.status "Trying fast download..." :: .progress 5 ::
              (itemsP ++ [.progress 75])) ++ evsC from by simp]
        rw [List.getLast?_append_of_ne_nil _ hneC]
        exact hlastC
      · have hfl : CobaltOutcome.failed (.fetched prog len) = false := by
          simp [CobaltOutcome.failed, hlen]
        rw [hfl]
        simp only [Bool.false_and, Bool.false_eq_true, if_false]
        rw [show SseEvent.status "Trying fast download..." :: .progress 5 ::
            (itemsP ++ .progress 75 :: evsC) =
            (SseEvent.status "Trying fast download..." :: .progress 5 ::
              (itemsP ++ [.progress 75])) ++ evsC from by simp]
        rw [List.filter_append]
        simp only [List.length_append]
        rw [show (SseEvent.status "Trying fast download..." :: .progress 5 ::
            (itemsP ++ [SseEvent.progress 75])).filter SseEvent.isTerminal =
            itemsP.filter SseEvent.isTerminal from by
          simp [SseEvent.isTerminal, List.filter_append]]
        rw [filter_terminal_nil hntP]
        simpa using hcountC
      · rw [hcfC]
        simp [CobaltOutcome.failed, hlen]
      · intro h
        rw [show CobaltOutcome.failed (.fetched prog len) = false from by
          simp [CobaltOutcome.failed, hlen]] at h
        cases h
      · intro _
        exact hdmC

lemma runController_props (hp : Helpers) (env : ControllerEnv) (videoId : String) :
    (∃ (evs : List SseEvent) (e : SseEvent),
      (runController hp env videoId).stream.out =
        evs.map TraceItem.ev ++ [TraceItem.close] ∧
      evs.getLast? = some e ∧ e.isTerminal = true ∧
      (evs.filter SseEvent.isTerminal).length = controllerK env) ∧
    (env.meta.isUnavail = false →
      (runController hp env videoId).cobaltFailed = env.cobalt.failed ∧
      (env.cobalt.failed = true →
        TraceItem.ev (.status "Starting download...") ∈
          (runController hp env videoId).stream.out) ∧
      (env.cobalt.failed = false →
        (runController hp env videoId).downloadMethod = "cobalt")) := by
  unfold runController
  cases hmeta : env.meta with
  | unavailableErr =>
    dsimp only
    simp only [send_open, closeStream_open]
    constructor
    · refine ⟨[.status "Getting video info...", .error "Video not found or unavailable"],
        .error "Video not found or unavailable", by simp, rfl, rfl, ?_⟩
      simp [controllerK, hmeta, MetaOutcome.isUnavail, SseEvent.isTerminal]
    · intro h
      simp [MetaOutcome.isUnavail] at h
  | available vt ar tt up =>
    dsimp only
    simp only [send_open, List.nil_append, List.cons_append]
    obtain ⟨⟨evsA, eA, houtA, hlastA, htermA, hcountA⟩, hcfA, hmemA, hdmA⟩ :=
      contAfterMeta_props hp env videoId
        [.ev (.status "Getting video info..."), .ev (.info vt ar tt)] vt ar tt up
    have hK : controllerK env =
        (if env.cobalt.failed && env.ytEnd.isProcError then 2 else 1) := by
      simp [controllerK, hmeta, MetaOutcome.isUnavail]
    refine ⟨⟨.status "Getting video info..." :: .info vt ar tt :: evsA, eA, ?_, ?_,
      htermA, ?_⟩, ?_⟩
    · rw [houtA]
      simp
    · have hneA : evsA ≠ [] := by
        intro h
        rw [h] at hlastA
        cases hlastA
      rw [show SseEvent.status "Getting video info..." :: .info vt ar tt :: evsA =
          [SseEvent.status "Getting video info...", .info vt ar tt] ++ evsA from rfl]
      rw [List.getLast?_append_of_ne_nil _ hneA]
      exact hlastA
    · rw [hK]
      rw [show SseEvent.status "Getting video info..." :: .info vt ar tt :: evsA =
          [SseEvent.status "Getting video info...", .info vt ar tt] ++ evsA from rfl]
      rw [List.filter_append]
      simpa [SseEvent.isTerminal] using hcountA
    · intro _
      exact ⟨hcfA, hmemA, hdmA⟩
  | otherErr =>
    dsimp only
    simp only [send_open, List.nil_append, List.cons_append]
    obtain ⟨⟨evsA, eA, houtA, hlastA, htermA, hcountA⟩, hcfA, hmemA, hdmA⟩ :=
      contAfterMeta_props hp env videoId
        [.ev (.status "Getting video info...")] "" "" "" ""
    have hK : controllerK env =
        (if env.cobalt.failed && env.ytEnd.isProcError then 2 else 1) := by
      simp [controllerK, hmeta, MetaOutcome.isUnavail]
    refine ⟨⟨.status "Getting video info..." :: evsA, eA, ?_, ?_, htermA, ?_⟩, ?_⟩
    · rw [houtA]
      simp
    · have hneA : evsA ≠ [] := by
        intro h
        rw [h] at hlastA
        cases hlastA
      rw [show SseEvent.status "Getting video info..." :: evsA =
          [SseEvent.status "Getting video info..."] ++ evsA from rfl]
      rw [List.getLast?_append_of_ne_nil _ hneA]
      exact hlastA
    · rw [hK]
      rw [show SseEvent.status "Getting video info..." :: evsA =
          [SseEvent.status "Getting video info..."] ++ evsA from rfl]
      rw [List.filter_append]
      simpa [SseEvent.isTerminal] using hcountA
    · intro _
      exact ⟨hcfA, hmemA, hdmA⟩

/-- C5 (amended): every run of the download-stream controller emits its
events strictly before the single close, the last event is a terminal
(`complete` or `error`) event, and the number of terminal events is
`controllerK env` — exactly one, except when the primary attempt fails and
the fallback yt-dlp process raises a process-level error event, in which
case the parsed error event is emitted twice (once by the process error
handler and once by the outer catch after the promise rejection); `send` on
a closed stream is a silent no-op and `closeStream` is idempotent. -/
theorem claim5_terminal_event_discipline (hp : Helpers) (env : ControllerEnv)
    (videoId : String) :
    (∃ (evs : List SseEvent) (e : SseEvent),
      (runController hp env videoId).stream.out =
        evs.map TraceItem.ev ++ [TraceItem.close] ∧
      evs.getLast? = some e ∧ e.isTerminal = true ∧
      (evs.filter SseEvent.isTerminal).length = controllerK env) ∧
    (env.cobalt.failed = false ∨ env.ytEnd.isProcError = false →
      controllerK env = 1) ∧
    (∀ (st : StreamState) (e : SseEvent), st.isClosed = true → send st e = st) ∧
    (∀ st : StreamState, closeStream (closeStream st) = closeStream st) := by
  refine ⟨(runController_props hp env videoId).1, ?_, ?_, ?_⟩
  · intro h
    unfold controllerK
    rcases h with h | h <;> simp [h]
  · intro st e h
    simp [send, h]
  · intro st
    unfold closeStream
    by_cases h : st.isClosed
    · simp [h]
    · simp [h]

/-- C5 counterexample: when the primary attempt fails and the yt-dlp process
emits a process-level "error" event, the run emits the error event twice
(the `on("error")` handler sends one, and the second `on("error", reject)`
listener routes the same error through the outer catch, which sends it
again), so "exactly one terminal event" is false. -/
theorem claim5_counterexample :
    terminalCount (runController
      ⟨fun t => ("", t), fun u => u, fun _ => none, fun _ => none, fun _ => ""⟩
      ⟨.otherErr, .requestFailed "boom", [], .procError "kaput", true, 3,
        fun _ _ _ => ⟨none, false⟩⟩ "dQw4w9WgXcQ").stream.out = 2 ∧
    ¬ terminalCount (runController
      ⟨fun t => ("", t), fun u => u, fun _ => none, fun _ => none, fun _ => ""⟩
      ⟨.otherErr, .requestFailed "boom", [], .procError "kaput", true, 3,
        fun _ _ _ => ⟨none, false⟩⟩ "dQw4w9WgXcQ").stream.out = 1 := by
  constructor
  · rfl
  · intro h
    rw [show terminalCount (runController
        ⟨fun t => ("", t), fun u => u, fun _ => none, fun _ => none, fun _ => ""⟩
        ⟨.otherErr, .requestFailed "boom", [], .procError "kaput", true, 3,
          fun _ _ _ => ⟨none, false⟩⟩ "dQw4w9WgXcQ").stream.out = 2 from rfl] at h
    cases h

/-- C5 witness: the send-after-close no-op conjunct at a concrete closed
stream, via the theorem. -/
theorem claim5_witness :
    send ⟨true, [TraceItem.close]⟩ (.status "late") = ⟨true, [TraceItem.close]⟩ :=
  (claim5_terminal_event_discipline
    ⟨fun t => ("", t), fun u => u, fun _ => none, fun _ => none, fun _ => ""⟩
    ⟨.otherErr, .requestFailed "x", [], .closed 0, true, 3,
      fun _ _ _ => ⟨none, false⟩⟩ "v").2.2.1 ⟨true, [TraceItem.close]⟩
    (.status "late") rfl

/-- C6: whenever the primary (Cobalt) attempt fails — any thrown error of
the taxonomy, or a zero-length payload — the yt-dlp fallback runs (the
`cobaltFailed` flag is set and the fallback "Starting download..." status
is emitted); on a success with non-empty bytes the fallback never runs and
the provider is "cobalt"; and the run is entirely independent of the primary
error message, so the primary error is never surfaced to the caller. -/
theorem claim6_fallback_decision (hp : Helpers) (env : ControllerEnv)
    (videoId : String) (hmeta : env.meta.isUnavail = false) :
    (env.cobalt.failed = true →
      (runController hp env videoId).cobaltFailed = true ∧
      TraceItem.ev (.status "Starting download...") ∈
        (runController hp env videoId).stream.out) ∧
    (∀ prog len, env.cobalt = .fetched prog len → len ≠ 0 →
      (runController hp env videoId).cobaltFailed = false ∧
      (runController hp env videoId).downloadMethod = "cobalt") ∧
    (∀ prog, env.cobalt = .fetched prog 0 →
      (runController hp env videoId).cobaltFailed = true) ∧
    (∀ m1 m2, runController hp { env with cobalt := .requestFailed m1 } videoId =
      runController hp { env with cobalt := .requestFailed m2 } videoId) ∧
    (∀ prog m1 m2,
      runController hp { env with cobalt := .fetchFailed prog m1 } videoId =
      runController hp { env with cobalt := .fetchFailed prog m2 } videoId) := by
  obtain ⟨hcf, hmem, hdm⟩ := (runController_props hp env videoId).2 hmeta
  refine ⟨?_, ?_, ?_, ?_, ?_⟩
  · intro hfail
    exact ⟨hcf.trans hfail, hmem hfail⟩
  · intro prog len hc hlen
    have hfl : env.cobalt.failed = false := by
      rw [hc]
      simp [CobaltOutcome.failed, hlen]
    exact ⟨hcf.trans hfl, hdm hfl⟩
  · intro prog hc
    have hfl : env.cobalt.failed = true := by
      rw [hc]
      simp [CobaltOutcome.failed]
    exact hcf.trans hfl
  · intro m1 m2
    cases env.meta <;> rfl
  · intro prog m1 m2
    cases env.meta <;> rfl

/-- C6 witness: a concrete failing request triggers fallback, and a
successful 512-byte payload does not. -/
theorem claim6_witness :
    ((runController
      ⟨fun t => ("", t), fun u => u, fun _ => none, fun _ => none, fun _ => ""⟩
      ⟨.otherErr, .requestFailed "boom", [], .closed 0, true, 3,
        fun _ _ _ => ⟨none, false⟩⟩ "v").cobaltFailed = true ∧
      TraceItem.ev (.status "Starting download...") ∈
        (runController
          ⟨fun t => ("", t), fun u => u, fun _ => none, fun _ => none, fun _ => ""⟩
          ⟨.otherErr, .requestFailed "boom", [], .closed 0, true, 3,
            fun _ _ _ => ⟨none, false⟩⟩ "v").stream.out) ∧
    (runController
      ⟨fun t => ("", t), fun u => u, fun _ => none, fun _ => none, fun _ => ""⟩
      ⟨.otherErr, .fetched [] 512, [], .closed 0, true, 3,
        fun _ _ _ => ⟨none, false⟩⟩ "v").cobaltFailed = false := by
  constructor
  · exact (claim6_fallback_decision
      ⟨fun t => ("", t), fun u => u, fun _ => none, fun _ => none, fun _ => ""⟩
      ⟨.otherErr, .requestFailed "boom", [], .closed 0, true, 3,
        fun _ _ _ => ⟨none, false⟩⟩ "v" rfl).1 rfl
  · exact ((claim6_fallback_decision
      ⟨fun t => ("", t), fun u => u, fun _ => none, fun _ => none, fun _ => ""⟩
      ⟨.otherErr, .fetched [] 512, [], .closed 0, true, 3,
        fun _ _ _ => ⟨none, false⟩⟩ "v" rfl).2.1 [] 512 rfl (by decide)).1

end DubRip
